import Mathlib

/-!
Verification of the transit_planner repository against its specification.

The Python sources are shallowly embedded: strings stay strings, machine
integers become `Int`/`Nat` (CPython integers are unbounded, so no modular
arithmetic is needed), floats used for scores and rates become `Rat`
(the idealised real-number reading of the arithmetic the code performs),
and geographic floats in the walk-edge builder become `Real` because the
code calls transcendental functions.  Fallible code returns `Option`.
Database queries are reimplemented over explicit lists of rows, and the
external k-shortest-path generator (networkx) is abstracted as an input
list of candidate node paths.
-/

set_option maxRecDepth 10000

namespace TransitPlanner

/-! ## Time parsing

Two distinct parsers appear in the sources:

* `hms_to_seconds` — the Python helper (identical bodies in
  `graph/builder.py`, `routing/engine.py` and `reliability/live.py`):
  `parts = hms.strip().split(":"); int(parts[0])*3600+int(parts[1])*60+int(parts[2])`
  with every exception mapped to 0.

* `sql_hms` — the SQL expression used by `routing/engine.py` and
  `ingestion/seed_reliability.py`:
  `CAST(substr(t,1,2) AS INT)*3600 + CAST(substr(t,4,2) AS INT)*60
   + CAST(substr(t,7,2) AS INT)` with SQLite CAST semantics (longest
  integer prefix, defaulting to 0).

The embedding of Python `int(...)`/`str.strip` covers ASCII text (Python
additionally accepts non-ASCII digit and space code points).
-/

/-- Characters treated as whitespace by Python `str.strip()` (ASCII part). -/
def pyWhitespace (c : Char) : Bool :=
  c = ' ' || c = '\t' || c = '\n' || c = '\r' || c = Char.ofNat 11 || c = Char.ofNat 12

/-- Python `str.strip()` on a character list. -/
def pyStrip (l : List Char) : List Char :=
  ((l.dropWhile pyWhitespace).reverse.dropWhile pyWhitespace).reverse

/-- Python `str.split(":")`: split on every colon, keeping empty fields. -/
def splitOnColon : List Char → List (List Char)
  | [] => [[]]
  | c :: rest =>
    if c = ':' then [] :: splitOnColon rest
    else
      match splitOnColon rest with
      | [] => [[c]]
      | p :: ps => (c :: p) :: ps

def isDigitChar (c : Char) : Bool := '0' ≤ c && c ≤ '9'

def digitVal (c : Char) : ℕ := c.toNat - '0'.toNat

/-- Digit-string body of a Python integer literal: digits with single
underscores allowed between digits.  `acc` accumulates the value. -/
def pyIntDigitsGo (acc : ℕ) : List Char → Option ℕ
  | [] => some acc
  | c :: rest =>
    if isDigitChar c then pyIntDigitsGo (acc * 10 + digitVal c) rest
    else if c = '_' then
      match rest with
      | [] => none
      | d :: rest' =>
        if isDigitChar d then pyIntDigitsGo (acc * 10 + digitVal d) rest' else none
    else none

def pyIntDigits : List Char → Option ℕ
  | [] => none
  | c :: rest => if isDigitChar c then pyIntDigitsGo (digitVal c) rest else none

/-- Python `int(s)` on a string (base 10, ASCII): optional surrounding
whitespace, optional sign, digits with underscore separators. -/
def pyInt (l : List Char) : Option ℤ :=
  match pyStrip l with
  | [] => none
  | c :: rest =>
    if c = '-' then (pyIntDigits rest).map (fun n => -(n : ℤ))
    else if c = '+' then (pyIntDigits rest).map (fun n => (n : ℤ))
    else (pyIntDigits (c :: rest)).map (fun n => (n : ℤ))

/-- `_hms_to_seconds` from the sources: parse `"HH:MM:SS"` (hours may
exceed 23), returning 0 on any parse failure. -/
def hms_to_seconds (s : String) : ℤ :=
  match splitOnColon (pyStrip s.data) with
  | p0 :: p1 :: p2 :: _ =>
    match pyInt p0, pyInt p1, pyInt p2 with
    | some a, some b, some c => a * 3600 + b * 60 + c
    | _, _, _ => 0
  | _ => 0

/-- SQLite `CAST(t AS INT)` on text: skip leading spaces, optional sign,
longest digit prefix; no digits yields 0. -/
def sqliteCastInt (l : List Char) : ℤ :=
  let t := l.dropWhile pyWhitespace
  match t with
  | '-' :: rest => -((rest.takeWhile isDigitChar).foldl (fun a c => a * 10 + digitVal c) 0 : ℕ)
  | '+' :: rest => ((rest.takeWhile isDigitChar).foldl (fun a c => a * 10 + digitVal c) 0 : ℕ)
  | t' => ((t'.takeWhile isDigitChar).foldl (fun a c => a * 10 + digitVal c) 0 : ℕ)

/-- SQLite `substr(s, start, len)` (1-indexed). -/
def sqlSubstr (s : String) (start len : ℕ) : List Char :=
  (s.data.drop (start - 1)).take len

/-- The departure-time-to-seconds SQL expression used in the trip-selection
query of `routing/engine.py` and the hour extraction of
`ingestion/seed_reliability.py` builds on this per-field cast. -/
def sql_hms (s : String) : ℤ :=
  sqliteCastInt (sqlSubstr s 1 2) * 3600 + sqliteCastInt (sqlSubstr s 4 2) * 60 +
    sqliteCastInt (sqlSubstr s 7 2)

/-! ## Claim-side formatting for C8

The spec speaks of "the zero-padded string HH:MM:SS" for a time
`(h, m, s)`.  These definitions build that string so the round-trip
property can be stated; they come from the spec's words, not the code. -/

def digitChar : ℕ → Char
  | 0 => '0' | 1 => '1' | 2 => '2' | 3 => '3' | 4 => '4'
  | 5 => '5' | 6 => '6' | 7 => '7' | 8 => '8' | _ => '9'

/-- Decimal digits of `n`, most significant first. -/
def natDigits (n : ℕ) : List Char :=
  if _h : n < 10 then [digitChar n]
  else natDigits (n / 10) ++ [digitChar (n % 10)]
decreasing_by exact Nat.div_lt_self (by omega) (by omega)

/-- Pad a digit string to width 2 with leading zeros. -/
def zfill2 (l : List Char) : List Char :=
  if l.length < 2 then List.replicate (2 - l.length) '0' ++ l else l

/-- The zero-padded `"HH:MM:SS"` rendering of `(h, m, s)`; hours keep all
their digits when `h ≥ 100`. -/
def fmtHMS (h m s : ℕ) : String :=
  ⟨zfill2 (natDigits h) ++ ':' :: (zfill2 (natDigits m) ++ ':' :: zfill2 (natDigits s))⟩

/-- The value accumulated by reading decimal digits left to right. -/
def foldDigits (acc : ℕ) (l : List Char) : ℕ :=
  l.foldl (fun a c => a * 10 + digitVal c) acc

/-- The first three colon fields of the stripped input, when all three
parse as Python integers: the exact success condition of
`hms_to_seconds`. -/
def threeIntFields (s : String) : Option (ℤ × ℤ × ℤ) :=
  match splitOnColon (pyStrip s.data) with
  | p0 :: p1 :: p2 :: _ =>
    match pyInt p0, pyInt p1, pyInt p2 with
    | some a, some b, some c => some (a, b, c)
    | _, _, _ => none
  | _ => none

/-! ## Live-state model and risk combiner (`reliability/live.py`)

Scores and rates are modelled over `ℚ` (the idealised reading of the
float arithmetic).  Python `round(x, 3)` is modelled as exact
round-half-even at three decimals.  The module-level GTFS-RT dicts are
gathered into one `LiveState` record passed explicitly; `dict` becomes
an association list (first match wins, mirroring keyed dicts built
without duplicate keys), and `vehicle_positions` keeps only its key set
because only `trip_id in vehicle_positions` is ever read. -/

structure TripUpdateState where
  trip_id : String
  route_id : String
  delay_seconds : ℤ := 0
  is_cancelled : Bool := false
  deriving DecidableEq

structure ServiceAlertState where
  alert_id : String
  header : String
  description : String
  affected_route_ids : List String := []
  affected_stop_ids : List String := []
  deriving DecidableEq

structure LiveState where
  trip_updates : List (String × TripUpdateState)
  service_alerts : List ServiceAlertState
  vehicle_positions : List String
  deriving DecidableEq

/-- Python `dict.get` over an association list. -/
def dictGet {α : Type} (m : List (String × α)) (k : String) : Option α :=
  (m.find? (fun p => p.1 == k)).map (fun p => p.2)

/-- A datetime as the risk combiner reads it: `weekday()` (Monday = 0),
hour, minute, second. -/
structure QueryDt where
  weekday : ℕ
  hour : ℕ
  minute : ℕ
  second : ℕ
  deriving DecidableEq

structure RiskResult where
  risk_score : ℚ
  risk_label : String
  modifiers : List String
  is_cancelled : Bool
  deriving DecidableEq

def ALERT_RISK_BUMP : ℚ := 1/10
def CANCELLATION_RISK_BUMP : ℚ := 3/20
def MISSING_VEHICLE_RISK_BUMP : ℚ := 2/25
def LATE_EVENING_RISK_BUMP : ℚ := 1/20
def WEEKEND_RISK_BUMP : ℚ := 3/100

/-- Python `round` to an integer: round half to even. -/
def pythonRound (q : ℚ) : ℤ :=
  if q - ⌊q⌋ < 1/2 then ⌊q⌋
  else if 1/2 < q - ⌊q⌋ then ⌊q⌋ + 1
  else if ⌊q⌋ % 2 = 0 then ⌊q⌋ else ⌊q⌋ + 1

/-- Python `round(x, 3)`. -/
def round3 (q : ℚ) : ℚ := (pythonRound (q * 1000) : ℚ) / 1000

/-- `_risk_label` from `reliability/live.py`. -/
def riskLabel (score : ℚ) : String :=
  if score < 33/100 then "Low"
  else if score < 66/100 then "Medium"
  else "High"

/-- `_alerts_for`: alerts whose affected routes contain the route or
whose affected stops contain the stop. -/
def alerts_for (st : LiveState) (route_id stop_id : String) : List ServiceAlertState :=
  st.service_alerts.filter
    (fun a => a.affected_route_ids.contains route_id || a.affected_stop_ids.contains stop_id)

/-- `_same_route_cancellations`: count of cancelled live updates on the route. -/
def same_route_cancellations (st : LiveState) (route_id : String) : ℕ :=
  (st.trip_updates.filter (fun p => p.2.route_id == route_id && p.2.is_cancelled)).length

/-- The non-cancelled tail of `compute_live_risk` (steps 2-8 of the
algorithm; the source inlines this below the early return).  The guard
`if active_alerts:` in the source is a no-op when the list is empty, so
the alert bump is written unconditionally. -/
def live_risk_uncancelled (st : LiveState) (route_id stop_id trip_id : String)
    (departure_time_str : String) (query_dt : QueryDt) (base_risk : ℚ) : RiskResult :=
  let active_alerts := alerts_for st route_id stop_id
  let adjAlerts : ℚ := ALERT_RISK_BUMP * active_alerts.length
  let modsAlerts : List String := active_alerts.map (fun a => "Service alert: " ++ a.header)
  let n := same_route_cancellations st route_id
  let adjCancels : ℚ := if n ≠ 0 then CANCELLATION_RISK_BUMP else 0
  let modsCancels : List String :=
    if n ≠ 0 then
      [toString n ++ " earlier cancellation(s) on route " ++ route_id ++ " today."] else []
  let dep_seconds := hms_to_seconds departure_time_str
  let query_seconds : ℤ :=
    (query_dt.hour : ℤ) * 3600 + (query_dt.minute : ℤ) * 60 + (query_dt.second : ℤ)
  let minutes_until : ℚ := ((dep_seconds - query_seconds : ℤ) : ℚ) / 60
  let missingVehicle : Prop :=
    0 < minutes_until ∧ minutes_until ≤ 15 ∧ trip_id ∉ st.vehicle_positions
  let adjVehicle : ℚ := if missingVehicle then MISSING_VEHICLE_RISK_BUMP else 0
  let modsVehicle : List String :=
    if missingVehicle then ["No vehicle position data found close to departure."] else []
  let adjEvening : ℚ := if 22 * 3600 ≤ dep_seconds then LATE_EVENING_RISK_BUMP else 0
  let modsEvening : List String :=
    if 22 * 3600 ≤ dep_seconds then
      ["Late-evening departure (after 22:00) — reduced service frequency."] else []
  let adjWeekend : ℚ := if 5 ≤ query_dt.weekday then WEEKEND_RISK_BUMP else 0
  let modsWeekend : List String :=
    if 5 ≤ query_dt.weekday then
      ["Weekend service — less frequent, higher no-show rate historically."] else []
  let total_adjustment := adjAlerts + adjCancels + adjVehicle + adjEvening + adjWeekend
  let final_risk := min 1 (base_risk + total_adjustment)
  { risk_score := round3 final_risk
    risk_label := riskLabel final_risk
    modifiers := modsAlerts ++ modsCancels ++ modsVehicle ++ modsEvening ++ modsWeekend
    is_cancelled := false }

/-- `compute_live_risk` from `reliability/live.py`. -/
def compute_live_risk (st : LiveState) (route_id stop_id trip_id : String)
    (departure_time_str : String) (query_dt : QueryDt)
    (historical_reliability : ℚ) : RiskResult :=
  let base_risk : ℚ := 1 - historical_reliability
  match dictGet st.trip_updates trip_id with
  | some tu =>
    if tu.is_cancelled then
      { risk_score := 1
        risk_label := "High"
        modifiers := ["Trip is currently marked as cancelled in GTFS-RT."]
        is_cancelled := true }
    else
      live_risk_uncancelled st route_id stop_id trip_id departure_time_str query_dt base_risk
  | none =>
    live_risk_uncancelled st route_id stop_id trip_id departure_time_str query_dt base_risk

/-- The adjustment exactly as the claim words it: 0.10 per active alert
naming the route or stop, 0.15 if some live update on the same route is
cancelled, 0.08 if 0 < minutes-until-departure ≤ 15 with no vehicle
position, 0.05 for departures at or after 22:00, 0.03 on weekends. -/
def claimAdjustment (st : LiveState) (route_id stop_id trip_id : String)
    (departure_time_str : String) (query_dt : QueryDt) : ℚ :=
  (1/10) * (st.service_alerts.filter
    (fun a => a.affected_route_ids.contains route_id ||
        a.affected_stop_ids.contains stop_id)).length
  + (if ∃ p ∈ st.trip_updates, p.2.route_id = route_id ∧ p.2.is_cancelled = true
      then 3/20 else 0)
  + (if 0 < ((hms_to_seconds departure_time_str -
          ((query_dt.hour : ℤ) * 3600 + (query_dt.minute : ℤ) * 60 + (query_dt.second : ℤ)) :
          ℤ) : ℚ) / 60 ∧
        ((hms_to_seconds departure_time_str -
          ((query_dt.hour : ℤ) * 3600 + (query_dt.minute : ℤ) * 60 + (query_dt.second : ℤ)) :
          ℤ) : ℚ) / 60 ≤ 15 ∧
        trip_id ∉ st.vehicle_positions
      then 2/25 else 0)
  + (if 22 * 3600 ≤ hms_to_seconds departure_time_str then 1/20 else 0)
  + (if 5 ≤ query_dt.weekday then 3/100 else 0)

/-! ## Reliability records (`reliability/historical.py`, `ingestion/seed_reliability.py`)

The `reliability_records` table row.  Counter columns carry
`Column(Integer, default=0)` in `db/models.py`: that Python-side default
fires at INSERT flush, not at object construction (and the session is
`autoflush=False`), so a freshly constructed record still holds `None`
counters — `record_observed_departure` models reading them as the
`TypeError` the code raises there.  The structure's `:= 0` defaults are
relied on only by `seed_upsert_record`, which assigns every counter
before any read.  `updated_at` is an ISO-8601 string ordered
lexicographically, exactly as `ORDER BY updated_at DESC` orders TEXT. -/

structure ReliabilityRecord where
  route_id : String
  stop_id : String
  time_bucket : String
  observed_departures : ℤ := 0
  scheduled_departures : ℤ := 0
  total_delay_seconds : ℤ := 0
  cancellation_count : ℤ := 0
  window_start_date : String := ""
  window_end_date : String := ""
  updated_at : String := ""
  deriving DecidableEq

/-- `classify_time_bucket` from `reliability/historical.py`. -/
def classify_time_bucket (dt : QueryDt) : String :=
  if 5 ≤ dt.weekday then "weekend"
  else if 6 ≤ dt.hour ∧ dt.hour < 9 then "weekday_am_peak"
  else if 15 ≤ dt.hour ∧ dt.hour < 19 then "weekday_pm_peak"
  else "weekday_offpeak"

/-- `ORDER BY updated_at DESC ... first()`: the record with the greatest
`updated_at` (first in table order among ties). -/
def mostRecent (records : List ReliabilityRecord) : Option ReliabilityRecord :=
  records.foldl
    (fun best r =>
      match best with
      | none => some r
      | some b => if b.updated_at < r.updated_at then some r else some b)
    none

/-- The record the `filter_by(...).order_by(desc).first()` query of
`get_historical_reliability` selects. -/
def recordFor (records : List ReliabilityRecord) (route stop bucket : String) :
    Option ReliabilityRecord :=
  mostRecent (records.filter
    (fun r => r.route_id == route && r.stop_id == stop && r.time_bucket == bucket))

/-- `get_historical_reliability` from `reliability/historical.py`. -/
def get_historical_reliability (records : List ReliabilityRecord)
    (route stop bucket : String) : ℚ :=
  match recordFor records route stop bucket with
  | none => 4/5
  | some record =>
    if record.scheduled_departures = 0 then 4/5
    else
      let observed_rate : ℚ :=
        (record.observed_departures : ℚ) / (record.scheduled_departures : ℚ)
      let cancel_rate : ℚ :=
        (record.cancellation_count : ℚ) / (record.scheduled_departures : ℚ)
      let avg_delay_min : ℚ :=
        if 0 < record.observed_departures then
          (record.total_delay_seconds : ℚ) / (record.observed_departures : ℚ) / 60
        else 0
      let delay_penalty : ℚ := min (avg_delay_min / 30) 1 * (1/5)
      let score := observed_rate * (1 - cancel_rate) - delay_penalty
      max 0 (min 1 score)

/-- `record_observed_departure` from `reliability/historical.py` as a pure
record transform: `existing` is the row found for
`(route, stop, classify_time_bucket scheduled_at)` (`none` when absent),
`date_str` is `scheduled_at.strftime("%Y%m%d")` and `now_iso` the
`datetime.utcnow().isoformat()` timestamp, both supplied by the
environment.  When no row exists the code builds
`ReliabilityRecord(route_id=..., stop_id=..., time_bucket=...,
window_start_date=...)`, whose counter columns are still `None` — the
`Column(Integer, default=0)` defaults fire only at INSERT flush and the
session is `autoflush=False` — so the immediately following
`record.scheduled_departures += 1` raises `TypeError` before anything is
written: that path is `none`.  On an existing row the source's sequence
of in-place `+=` mutations is written as one functional update. -/
def record_observed_departure (route_id stop_id : String) (scheduled_at : QueryDt)
    (date_str now_iso : String) (delay_seconds : ℤ) (was_cancelled : Bool)
    (existing : Option ReliabilityRecord) : Option ReliabilityRecord :=
  match existing with
  | none => none
  | some base =>
    if was_cancelled then
      some { base with
        scheduled_departures := base.scheduled_departures + 1
        cancellation_count := base.cancellation_count + 1
        window_end_date := date_str
        updated_at := now_iso }
    else
      some { base with
        scheduled_departures := base.scheduled_departures + 1
        observed_departures := base.observed_departures + 1
        total_delay_seconds := base.total_delay_seconds + delay_seconds
        window_end_date := date_str
        updated_at := now_iso }

/-- `_PRIORS` from `ingestion/seed_reliability.py`:
(reliability_rate, cancellation_rate, avg_delay_seconds) per bucket.
The dict is only ever indexed with the four labels produced by
`classify_time_bucket`; the final arm is the `"weekend"` entry. -/
def PRIORS (bucket : String) : ℚ × ℚ × ℤ :=
  if bucket = "weekday_am_peak" then (17/20, 3/100, 180)
  else if bucket = "weekday_pm_peak" then (4/5, 1/20, 300)
  else if bucket = "weekday_offpeak" then (9/10, 1/50, 120)
  else (3/4, 2/25, 240)

/-- The per-triple upsert step of `seed_from_static`
(`ingestion/seed_reliability.py` lines 148-174): for an aggregated
scheduled count and the triple's existing row (if any), write the
synthetic counters.  There is no skip path: counters are overwritten
unconditionally. -/
def seed_upsert_record (route_id stop_id bucket : String) (scheduled : ℕ)
    (start_str end_str now_iso : String) (existing : Option ReliabilityRecord) :
    ReliabilityRecord :=
  let observed : ℤ := pythonRound ((scheduled : ℚ) * (PRIORS bucket).1)
  let cancelled : ℤ := pythonRound ((scheduled : ℚ) * (PRIORS bucket).2.1)
  let total_delay : ℤ := observed * (PRIORS bucket).2.2
  let base := existing.getD
    { route_id := route_id
      stop_id := stop_id
      time_bucket := bucket
      window_start_date := start_str }
  { base with
    scheduled_departures := (scheduled : ℤ)
    observed_departures := observed
    cancellation_count := cancelled
    total_delay_seconds := total_delay
    window_end_date := end_str
    updated_at := now_iso }

/-- The §3 counter invariant the claims quantify over. -/
def recordInvariant (r : ReliabilityRecord) : Prop :=
  r.observed_departures + r.cancellation_count ≤ r.scheduled_departures ∧
  0 ≤ r.scheduled_departures ∧ 0 ≤ r.observed_departures ∧
  0 ≤ r.total_delay_seconds ∧ 0 ≤ r.cancellation_count

instance (r : ReliabilityRecord) : Decidable (recordInvariant r) := by
  unfold recordInvariant
  infer_instance

/-! ## Graph and timetable model (`graph/builder.py`, `routing/engine.py`)

The `networkx.MultiDiGraph` becomes an explicit node list and a list of
directed labelled edges (parallel edges kept, insertion order preserved
— matching dict iteration order of `G.get_edge_data`).  The SQLAlchemy
queries are reimplemented over explicit row lists.  `ORDER BY
stop_sequence` is modelled with `List.insertionSort`, whose result is a
permutation of the rows sorted by the key (SQL leaves tie order
unspecified). -/

structure NodeAttr where
  name : String
  lat : ℚ
  lon : ℚ
  deriving DecidableEq

inductive EdgeData where
  | trip (trip_id route_id service_id departure_time arrival_time : String)
      (travel_seconds : ℕ)
  | walk (distance_m : ℚ) (walk_seconds : ℕ)
  deriving DecidableEq

/-- The `weight` attribute: `travel_seconds` on trip edges,
`walk_seconds` on walk edges (every edge the builder emits carries it). -/
def EdgeData.weight : EdgeData → ℕ
  | .trip _ _ _ _ _ t => t
  | .walk _ w => w

def EdgeData.isTrip : EdgeData → Bool
  | .trip .. => true
  | .walk .. => false

def EdgeData.routeId? : EdgeData → Option String
  | .trip _ r _ _ _ _ => some r
  | .walk .. => none

structure Graph where
  nodes : List (String × NodeAttr)
  edges : List (String × String × EdgeData)
  deriving DecidableEq

/-- `stop_id in G`. -/
def Graph.hasNode (G : Graph) (u : String) : Bool := G.nodes.any (fun p => p.1 == u)

/-- `G.nodes[u].get("name", u)`. -/
def Graph.nodeName (G : Graph) (u : String) : String :=
  match G.nodes.find? (fun p => p.1 == u) with
  | some p => p.2.name
  | none => u

/-- `G.get_edge_data(u, v)`: the parallel edges from `u` to `v`. -/
def Graph.edgeData (G : Graph) (u v : String) : List EdgeData :=
  (G.edges.filter (fun e => e.1 == u && e.2.1 == v)).map (fun e => e.2.2)

/-- A `"kind": "trip"` leg dict. -/
structure TripLeg where
  from_stop_id : String
  to_stop_id : String
  from_stop_name : String
  to_stop_name : String
  trip_id : String
  route_id : String
  service_id : String
  departure_time : String
  arrival_time : String
  travel_seconds : ℤ
  deriving DecidableEq

/-- A `"kind": "walk"` leg dict. -/
structure WalkLeg where
  from_stop_id : String
  to_stop_id : String
  from_stop_name : String
  to_stop_name : String
  distance_m : ℚ
  walk_seconds : ℕ
  deriving DecidableEq

inductive Leg where
  | trip (t : TripLeg)
  | walk (w : WalkLeg)
  deriving DecidableEq

/-- `[l for l in legs if l["kind"] == "trip"]`. -/
def tripLegs (legs : List Leg) : List TripLeg :=
  legs.filterMap (fun l => match l with | .trip t => some t | .walk _ => none)

/-- `next((l for l in legs if l["kind"] == "trip"), None)`. -/
def first_trip (legs : List Leg) : Option TripLeg := (tripLegs legs).head?

structure Trip where
  trip_id : String
  route_id : String
  service_id : String
  deriving DecidableEq

structure StopTimeRow where
  trip_id : String
  stop_id : String
  stop_sequence : ℤ
  arrival_time : String
  departure_time : String
  deriving DecidableEq

structure Timetable where
  trips : List Trip
  stop_times : List StopTimeRow
  deriving DecidableEq

/-- Configuration defaults from `config.py`. -/
def MAX_ROUTES : ℕ := 5
def MAX_TRANSFERS : ℕ := 2
def MIN_TRANSFER_MINUTES : ℕ := 10

/-- The WHERE clause of the trip-selection query in `_find_trip_legs`:
`st_first` rows at the first stop of a trip on the route and service
date, with a later `st_last` row at the last stop, departing (by the
SQL substring parse) at or after `not_before`. -/
def rowMatches (db : Timetable) (route_id first_stop last_stop service_date : String)
    (not_before : ℤ) (st : StopTimeRow) : Bool :=
  st.stop_id == first_stop &&
  db.trips.any (fun t => t.trip_id == st.trip_id && t.route_id == route_id &&
    t.service_id == service_date) &&
  db.stop_times.any (fun sl => sl.trip_id == st.trip_id && sl.stop_id == last_stop &&
    st.stop_sequence < sl.stop_sequence) &&
  decide (not_before ≤ sql_hms st.departure_time)

/-- Byte-wise text order (SQLite's default BINARY collation is memcmp
on the UTF-8 bytes, which equals code-point lexicographic order). -/
def textLt : List Char → List Char → Bool
  | [], [] => false
  | [], _ :: _ => true
  | _ :: _, [] => false
  | a :: as, b :: bs =>
    if a.toNat < b.toNat then true
    else if b.toNat < a.toNat then false
    else textLt as bs

/-- `textLt` on strings. -/
def strLt (a b : String) : Bool := textLt a.data b.data

/-- `ORDER BY st_first.departure_time ASC LIMIT 1` — the matching row
with the smallest departure-time TEXT (byte-wise, i.e. lexicographic)
— then its `trip_id`. -/
def trip_select (db : Timetable) (route_id first_stop last_stop service_date : String)
    (not_before : ℤ) : Option String :=
  ((db.stop_times.filter (rowMatches db route_id first_stop last_stop service_date
      not_before)).foldl
    (fun best st =>
      match best with
      | none => some st
      | some b => if strLt st.departure_time b.departure_time then some st else some b)
    none).map (fun st => st.trip_id)

/-- `query(StopTime).filter(trip_id).order_by(stop_sequence)`. -/
def trip_stop_times (db : Timetable) (trip_id : String) : List StopTimeRow :=
  (db.stop_times.filter (fun st => st.trip_id == trip_id)).insertionSort
    (fun a b => a.stop_sequence ≤ b.stop_sequence)

/-- Lookup in `{st.stop_id: st for st in stop_rows}`: the comprehension
lets later rows override earlier ones, so the dict maps `s` to the last
row with that stop id. -/
def stop_map_get (rows : List StopTimeRow) (s : String) : Option StopTimeRow :=
  rows.reverse.find? (fun r => r.stop_id == s)

/-- `_find_trip_legs` (the per-call memo cache of `_RouteQueryCache` only
avoids repeated identical queries against the same pure store, so it is
observationally transparent and omitted). -/
def find_trip_legs (db : Timetable) (G : Graph) (route_id : String) (stops : List String)
    (not_before : ℤ) (service_date : String) : Option (List Leg) :=
  match stops with
  | [] => none
  | s0 :: rest =>
    let lastStop := (s0 :: rest).getLast (by simp)
    match trip_select db route_id s0 lastStop service_date not_before with
    | none => none
    | some tid =>
      if (s0 :: rest).all (fun s => (stop_map_get (trip_stop_times db tid) s).isSome) then
        ((s0 :: rest).zip rest).mapM (fun p =>
          match stop_map_get (trip_stop_times db tid) p.1,
            stop_map_get (trip_stop_times db tid) p.2 with
          | some sa, some sb =>
            some (Leg.trip
              { from_stop_id := p.1
                to_stop_id := p.2
                from_stop_name := G.nodeName p.1
                to_stop_name := G.nodeName p.2
                trip_id := tid
                route_id := route_id
                service_id := service_date
                departure_time := sa.departure_time
                arrival_time := sb.arrival_time
                travel_seconds :=
                  max 0 (hms_to_seconds sb.arrival_time - hms_to_seconds sa.departure_time) })
          | _, _ => none)
      else none

/-- Does some trip edge from `a` to `b` belong to `route_id`? -/
def hasRouteEdge (G : Graph) (route_id a b : String) : Bool :=
  (G.edgeData a b).any (fun e => e.isTrip && e.routeId? == some route_id)

/-- The run-length count of `_pick_longest_route`: consecutive pairs of
the remaining node path covered by `route_id` trip edges. -/
def runLength (G : Graph) (route_id : String) : List String → ℕ
  | a :: b :: rest => if hasRouteEdge G route_id a b then runLength G route_id (b :: rest) + 1 else 0
  | _ => 0

/-- `_pick_longest_route` applied to the node-path suffix that starts the
segment.  Returns `none` when no trip edge exists on the first pair (the
Python code would raise there; it is only called when the minimum-weight
edge is a trip edge, which makes the candidate set non-empty).
The candidate set is dedupped in first-appearance order. -/
def pick_longest_route (G : Graph) : List String → Option String
  | u :: v :: rest =>
    let edges := G.edgeData u v
    let min_weight := (edges.map EdgeData.weight).foldl min
      ((edges.map EdgeData.weight).headD 0)
    let candidates := ((edges.filter
      (fun e => e.isTrip && e.weight == min_weight)).filterMap EdgeData.routeId?).dedup
    match candidates with
    | [] => none
    | [r] => some r
    | r0 :: _ =>
      some ((candidates.foldl
        (fun best rid =>
          let cnt := runLength G rid (u :: v :: rest)
          if best.2 < cnt then (rid, cnt) else best)
        (r0, 0)).1)
  | _ => none

/-- The inner while loop of `_schedule_path`'s trip branch: starting
after `a`, consume the longest chain of nodes linked by `route_id` trip
edges; returns (consumed nodes, untouched remainder). -/
def take_run (G : Graph) (route_id : String) : String → List String → List String × List String
  | _, [] => ([], [])
  | a, b :: rest =>
    if hasRouteEdge G route_id a b then
      let q := take_run G route_id b rest
      (b :: q.1, q.2)
    else ([], b :: rest)

/-- `min(edges.values(), key=weight)`: first edge of minimal weight. -/
def min_weight_edge (edges : List EdgeData) : Option EdgeData :=
  edges.foldl
    (fun best e =>
      match best with
      | none => some e
      | some b => if e.weight < b.weight then some e else some b)
    none

/-- `_schedule_path`'s while loop over the node path, fuelled: each
iteration consumes at least one node when the graph is well-formed, so
`nodes.length` fuel suffices; exhausted fuel (unreachable for graphs
whose trip edges carry route ids) returns `none`.  `some []` at the
bottom feeds the final `return legs if legs else None` in
`schedule_path`.  The `none` arms model the exceptions Python would
raise (empty trip segment, walk leg returned by `_find_trip_legs`). -/
def schedule_path_aux (db : Timetable) (G : Graph) (service_date : String) :
    ℕ → List String → ℤ → Option (List Leg)
  | 0, _, _ => none
  | _ + 1, [], _ => some []
  | _ + 1, [_], _ => some []
  | fuel + 1, u :: v :: rest, not_before =>
    match min_weight_edge (G.edgeData u v) with
    | none => none
    | some (.walk dist wsec) =>
      match schedule_path_aux db G service_date fuel (v :: rest)
          (not_before + (wsec : ℤ)) with
      | none => none
      | some legs =>
        some (Leg.walk
          { from_stop_id := u
            to_stop_id := v
            from_stop_name := G.nodeName u
            to_stop_name := G.nodeName v
            distance_m := dist
            walk_seconds := wsec } :: legs)
    | some (.trip ..) =>
      match pick_longest_route G (u :: v :: rest) with
      | none => none
      | some rid =>
        match take_run G rid u (v :: rest) with
        | ([], _) => none
        | (b :: seg, rem) =>
          match find_trip_legs db G rid (u :: b :: seg) not_before service_date with
          | none => none
          | some [] => none
          | some (tl :: tlegs) =>
            match (tl :: tlegs).getLast (by simp) with
            | .walk _ => none
            | .trip t =>
              match schedule_path_aux db G service_date fuel
                  ((b :: seg).getLast (by simp) :: rem)
                  (hms_to_seconds t.arrival_time + (MIN_TRANSFER_MINUTES : ℤ) * 60) with
              | none => none
              | some legs => some (tl :: tlegs ++ legs)

/-- `_schedule_path`: `service_date` is `departure_dt.strftime("%Y%m%d")`
and `not_before` its seconds past midnight. -/
def schedule_path (db : Timetable) (G : Graph) (service_date : String)
    (nodes : List String) (not_before : ℤ) : Option (List Leg) :=
  match schedule_path_aux db G service_date nodes.length nodes not_before with
  | some [] => none
  | r => r

/-- The consecutive trip-leg pairs a route's transfer logic inspects. -/
def tripLegPairs (legs : List Leg) : List (TripLeg × TripLeg) :=
  (tripLegs legs).zip (tripLegs legs).tail

/-- `count_transfers` (and the identical inline count in
`_passes_filters`): route changes between consecutive trip legs. -/
def count_transfers (legs : List Leg) : ℕ :=
  (tripLegPairs legs).countP (fun p => !(p.1.route_id == p.2.route_id))

/-- `_passes_filters`. -/
def passes_filters (legs : List Leg) : Bool :=
  if (tripLegs legs).isEmpty then false
  else if MAX_TRANSFERS < count_transfers legs then false
  else
    (tripLegPairs legs).all (fun p =>
      p.1.route_id == p.2.route_id ||
      decide ((MIN_TRANSFER_MINUTES : ℤ) * 60 ≤
        hms_to_seconds p.2.departure_time - hms_to_seconds p.1.arrival_time))

/-- `_route_signature`: trip ids in order, consecutive duplicates
collapsed, walk legs ignored. -/
def route_signature (legs : List Leg) : List String :=
  legs.foldl
    (fun sig l =>
      match l with
      | .trip t => if sig.getLast? = some t.trip_id then sig else sig ++ [t.trip_id]
      | .walk _ => sig)
    []

/-- `total_travel_seconds`. -/
def total_travel_seconds (legs : List Leg) : ℤ :=
  match (tripLegs legs).head?, (tripLegs legs).getLast? with
  | some f, some l => max 0 (hms_to_seconds l.arrival_time - hms_to_seconds f.departure_time)
  | _, _ => 0

/-- `total_walk_metres`. -/
def total_walk_metres (legs : List Leg) : ℚ :=
  (legs.filterMap (fun l => match l with | .walk w => some w.distance_m | .trip _ => none)).sum

/-- The Yen's-loop body of `find_routes` over the (truncated) candidate
path stream: schedule, filter, dedup, stop at `max_routes`. -/
def find_routes_loop (db : Timetable) (G : Graph) (service_date : String) (not_before : ℤ)
    (max_routes : ℕ) :
    List (List String) → List (List Leg) → List (List String) → List (List String) →
    List (List Leg) × List (List String) × List (List String)
  | [], routes, cands, seen => (routes, cands, seen)
  | p :: ps, routes, cands, seen =>
    if max_routes ≤ routes.length then (routes, cands, seen)
    else
      match schedule_path db G service_date p not_before with
      | none => find_routes_loop db G service_date not_before max_routes ps routes cands seen
      | some legs =>
        if ¬ passes_filters legs then
          find_routes_loop db G service_date not_before max_routes ps routes cands seen
        else if route_signature legs ∈ seen then
          find_routes_loop db G service_date not_before max_routes ps routes cands seen
        else
          find_routes_loop db G service_date not_before max_routes ps (routes ++ [legs])
            (cands ++ [p]) (seen ++ [route_signature legs])

def MAX_FILL_SECONDS : ℤ := 23 * 3600 + 59 * 60 + 59

/-- One round-robin pass of `_fill_later_departures` over
`(candidate path, pointer)` pairs, carrying routes, seen signatures and
the `any_active` flag.  `none` models the exceptions Python would raise:
a pointer list shorter than the path list, or a negative pointer fed to
`datetime(...)`. -/
def one_pass (db : Timetable) (G : Graph) (service_date : String) (max_routes : ℕ) :
    List (List String) → List (Option ℤ) → List (List Leg) → List (List String) → Bool →
    Option (List (Option ℤ) × List (List Leg) × List (List String) × Bool)
  | [], ptrs, routes, seen, act => some (ptrs, routes, seen, act)
  | p :: ps, ptrs0, routes, seen, act =>
    match ptrs0 with
    | [] => none
    | ptr :: ptrs =>
      if max_routes ≤ routes.length then some (ptr :: ptrs, routes, seen, act)
      else
        match ptr with
        | none =>
          (one_pass db G service_date max_routes ps ptrs routes seen act).map
            (fun q => (none :: q.1, q.2))
        | some nb =>
          if MAX_FILL_SECONDS < nb then
            (one_pass db G service_date max_routes ps ptrs routes seen act).map
              (fun q => (some nb :: q.1, q.2))
          else if nb < 0 then none
          else
            match schedule_path db G service_date p nb with
            | none =>
              (one_pass db G service_date max_routes ps ptrs routes seen true).map
                (fun q => (none :: q.1, q.2))
            | some legs =>
              if ¬ passes_filters legs then
                (one_pass db G service_date max_routes ps ptrs routes seen true).map
                  (fun q => (none :: q.1, q.2))
              else
                let ptr' := (first_trip legs).map
                  (fun t => hms_to_seconds t.departure_time + 1)
                if route_signature legs ∈ seen then
                  (one_pass db G service_date max_routes ps ptrs routes seen true).map
                    (fun q => (ptr' :: q.1, q.2))
                else
                  (one_pass db G service_date max_routes ps ptrs (routes ++ [legs])
                      (seen ++ [route_signature legs]) true).map
                    (fun q => (ptr' :: q.1, q.2))

/-- The fuelled while loop of `_fill_later_departures`.  Python's loop is
unbounded; running out of fuel returns `none` (the claim-C7 theorems
settle when that can and cannot happen). -/
def fill_loop (db : Timetable) (G : Graph) (service_date : String) (max_routes : ℕ)
    (paths : List (List String)) :
    ℕ → List (Option ℤ) → List (List Leg) → List (List String) →
    Option (List (List Leg))
  | 0, _, _, _ => none
  | fuel + 1, ptrs, routes, seen =>
    if max_routes ≤ routes.length then some routes
    else
      match one_pass db G service_date max_routes paths ptrs routes seen false with
      | none => none
      | some (ptrs', routes', seen', act) =>
        if act then fill_loop db G service_date max_routes paths fuel ptrs' routes' seen'
        else some routes'

/-- Fuel budget: an active pointer can advance at most
`MAX_FILL_SECONDS + 1 - nb` times before leaving the fill window. -/
def ptr_budget : Option ℤ → ℕ
  | none => 0
  | some nb => if 0 ≤ nb ∧ nb ≤ MAX_FILL_SECONDS then (MAX_FILL_SECONDS + 1 - nb).toNat else 0

def fill_measure (ptrs : List (Option ℤ)) : ℕ := (ptrs.map ptr_budget).sum

/-- `_fill_later_departures`: seed each path's pointer one second past
its found route's first trip departure, then round-robin. -/
def fill_later_departures (db : Timetable) (G : Graph) (service_date : String)
    (routes : List (List Leg)) (candidate_paths : List (List String))
    (seen : List (List String)) (max_routes : ℕ) : Option (List (List Leg)) :=
  let ptrs := routes.map
    (fun legs => (first_trip legs).map (fun t => hms_to_seconds t.departure_time + 1))
  fill_loop db G service_date max_routes candidate_paths
    (fill_measure ptrs + 2) ptrs routes seen

/-- `find_routes`.  The candidate node paths stand for the stream Yen's
algorithm (`nx.shortest_simple_paths` over the min-weight projection)
would yield — an external library call, abstracted as an input; the
`MAX_CANDIDATES = max_routes * 15` cap becomes `List.take`.  The
departure datetime is split into its `%Y%m%d` string and
seconds-past-midnight.  `none` covers every non-returning outcome
(unknown stop `ValueError`, or an exception inside the fill). -/
def find_routes (db : Timetable) (G : Graph) (candidate_paths : List (List String))
    (origin destination service_date : String) (dep_h dep_m dep_s : ℕ)
    (max_routes : ℕ) : Option (List (List Leg)) :=
  if ¬ (G.hasNode origin = true) ∨ ¬ (G.hasNode destination = true) then none
  else
    let not_before : ℤ := (dep_h : ℤ) * 3600 + (dep_m : ℤ) * 60 + (dep_s : ℤ)
    let r := find_routes_loop db G service_date not_before max_routes
      (candidate_paths.take (max_routes * 15)) [] [] []
    if r.1.length < max_routes ∧ r.2.1 ≠ [] then
      fill_later_departures db G service_date r.1 r.2.1 r.2.2 max_routes
    else
      some r.1

/-! ## Result cache (`api/main.py`)

`_routes_cache` keyed by `(origin, destination, YYYY-MM-DD, HH:MM)`,
holding the raw routes list and its store time.  Wall-clock instants
become natural numbers (seconds); `datetime.now() - cached_at >
timedelta(hours=1)` becomes `3600 < now - cached_at`. -/

abbrev CacheKey := String × String × String × String

abbrev CacheMap := List (CacheKey × (List (List Leg) × ℕ))

def ROUTES_CACHE_TTL : ℕ := 3600

/-- `_get_cached_routes`: returns the (possibly TTL-evicted) cache and
the hit. -/
def get_cached_routes (now : ℕ) (cache : CacheMap) (key : CacheKey) :
    CacheMap × Option (List (List Leg)) :=
  match cache.find? (fun e => e.1 == key) with
  | none => (cache, none)
  | some e =>
    if ROUTES_CACHE_TTL < now - e.2.2 then
      (cache.filter (fun e' => !(e'.1 == key)), none)
    else (cache, some e.2.1)

/-- `_store_cached_routes`: dict assignment. -/
def store_cached_routes (cache : CacheMap) (key : CacheKey)
    (routes : List (List Leg)) (now : ℕ) : CacheMap :=
  (cache.filter (fun e => !(e.1 == key))) ++ [(key, (routes, now))]

/-- The cache interaction of the `get_routes` handler: look up; on a
miss use the routing result `computed` (the `find_routes` output), store
it only when non-empty; raise 404 (`Except.error`) when the final list
is empty. -/
def get_routes_cache_step (now : ℕ) (cache : CacheMap) (key : CacheKey)
    (computed : List (List Leg)) : CacheMap × Except Unit (List (List Leg)) :=
  match (get_cached_routes now cache key).2 with
  | some routes =>
    ((get_cached_routes now cache key).1, if routes.isEmpty then .error () else .ok routes)
  | none =>
    if computed.isEmpty then ((get_cached_routes now cache key).1, .error ())
    else (store_cached_routes (get_cached_routes now cache key).1 key computed now,
      .ok computed)

/-! ## Graph builder and cache (`graph/builder.py`)

`_graph`/`_last_built_at` module globals become a `BuilderState`.  The
walk-edge list handed to `add_walk_edges` is whichever edge set the
PostGIS or bisect constructor produced (their geometry is modelled over
`ℝ` separately for C4). -/

structure JoinedStopTime where
  trip_id : String
  stop_id : String
  departure_time : String
  arrival_time : String
  stop_sequence : ℤ
  route_id : String
  service_id : String
  deriving DecidableEq

def emptyGraph : Graph := ⟨[], []⟩

/-- `_add_stop_nodes` (stop ids are primary keys, hence distinct). -/
def add_stop_nodes (G : Graph) (stops : List (String × NodeAttr)) : Graph :=
  { G with nodes := G.nodes ++ stops }

/-- The `best` dict of `_add_trip_edges`: the consecutive-pair stream
(rows ordered by `(trip_id, stop_sequence)`, pairs within one trip),
deduplicated by `(from_stop, to_stop, route_id)` keeping minimum travel
time; insertion order preserved as in a Python dict. -/
def best_trip_edges (rows : List JoinedStopTime) :
    List ((String × String × String) × EdgeData) :=
  ((rows.zip rows.tail).filter (fun p => p.1.trip_id == p.2.trip_id)).foldl
    (fun best p =>
      let travel : ℕ :=
        (max 0 (hms_to_seconds p.2.arrival_time - hms_to_seconds p.1.departure_time)).toNat
      let key := (p.1.stop_id, p.2.stop_id, p.1.route_id)
      let e := EdgeData.trip p.1.trip_id p.1.route_id p.1.service_id p.1.departure_time
        p.2.arrival_time travel
      match best.find? (fun q => q.1 == key) with
      | none => best ++ [(key, e)]
      | some old =>
        if travel < old.2.weight then
          best.map (fun q => if q.1 == key then (key, e) else q)
        else best)
    []

/-- `_add_trip_edges`. -/
def add_trip_edges (G : Graph) (rows : List JoinedStopTime) : Graph :=
  { G with edges := G.edges ++ (best_trip_edges rows).map (fun q => (q.1.1, q.1.2.1, q.2)) }

/-- `_add_walk_edges` with the produced walk-edge list as input. -/
def add_walk_edges (G : Graph) (walk_edges : List (String × String × EdgeData)) : Graph :=
  { G with edges := G.edges ++ walk_edges }

structure BuilderState where
  graph : Option Graph
  last_built_at : Option ℕ
  deriving DecidableEq

/-- `get_graph`: raises until a build has succeeded. -/
def get_graph (st : BuilderState) : Except String Graph :=
  match st.graph with
  | none => .error "Transit graph has not been built yet. Call build_graph() first."
  | some g => .ok g

/-- `build_graph`: construct the full graph (nodes, then trip edges,
then walk edges) and only then install it, replacing whatever the cache
held. -/
def build_graph (_st : BuilderState) (stops : List (String × NodeAttr))
    (rows : List JoinedStopTime) (walk_edges : List (String × String × EdgeData))
    (now : ℕ) : BuilderState × Graph :=
  let G := add_walk_edges (add_trip_edges (add_stop_nodes emptyGraph stops) rows) walk_edges
  ({ graph := some G, last_built_at := some now }, G)

structure BuildInput where
  stops : List (String × NodeAttr)
  rows : List JoinedStopTime
  walk_edges : List (String × String × EdgeData)
  built_at : ℕ

/-- The process history: a sequence of successful `build_graph` calls
starting from the never-built state. -/
def run_builds (st : BuilderState) (builds : List BuildInput) : BuilderState :=
  builds.foldl (fun s b => (build_graph s b.stops b.rows b.walk_edges b.built_at).1) st

/-! ## Walk-edge geometry (`graph/builder.py`, C4)

The float trigonometry of `_haversine_metres` and the walk-edge
constructors is modelled over `ℝ` (the idealised reading); stop
coordinates are rational inputs cast into `ℝ`. -/

/-- `math.radians`. -/
noncomputable def radians (x : ℝ) : ℝ := x * (Real.pi / 180)

/-- `math.atan2` (two-argument arctangent with quadrant correction). -/
noncomputable def atan2 (y x : ℝ) : ℝ :=
  if 0 < x then Real.arctan (y / x)
  else if x < 0 then
    (if 0 ≤ y then Real.arctan (y / x) + Real.pi else Real.arctan (y / x) - Real.pi)
  else
    (if 0 < y then Real.pi / 2 else if y < 0 then -(Real.pi / 2) else 0)

/-- `_haversine_metres` with its intermediate `a` inlined
(R = 6 371 000, `2R·atan2(√a, √(1−a))`). -/
noncomputable def haversine_metres (lat1 lon1 lat2 lon2 : ℝ) : ℝ :=
  2 * 6371000 *
    atan2
      (Real.sqrt (Real.sin (radians (lat2 - lat1) / 2) ^ 2 +
        Real.cos (radians lat1) * Real.cos (radians lat2) *
          Real.sin (radians (lon2 - lon1) / 2) ^ 2))
      (Real.sqrt (1 - (Real.sin (radians (lat2 - lat1) / 2) ^ 2 +
        Real.cos (radians lat1) * Real.cos (radians lat2) *
          Real.sin (radians (lon2 - lon1) / 2) ^ 2)))

structure GeoStop where
  stop_id : String
  stop_lat : ℚ
  stop_lon : ℚ
  deriving DecidableEq

def MAX_WALK_METRES : ℕ := 500

/-- `delta_lat = MAX_WALK_METRES / 111_320` of `_add_walk_edges_bisect`
(a rational constant in the Python source's float arithmetic). -/
def DELTA_LAT : ℚ := 500 / 111320

/-- Modelled from the spec: the PostGIS geography functions
`ST_DWithin`/`ST_Distance` used by `_add_walk_edges_postgis` live in the
database, outside this repository; §4.C and §8(6) treat them as the same
great-circle distance the bisect path verifies with `_haversine_metres`.
The PostGIS construction therefore emits the ordered pair `(a, b)`
exactly when the stops differ and their haversine distance is within
`MAX_WALK_METRES`. -/
def postgis_walk_edge (stops : List GeoStop) (a b : GeoStop) : Prop :=
  a ∈ stops ∧ b ∈ stops ∧ a.stop_id ≠ b.stop_id ∧
  haversine_metres (a.stop_lat : ℝ) (a.stop_lon : ℝ) (b.stop_lat : ℝ) (b.stop_lon : ℝ) ≤ 500

/-- `_add_walk_edges_bisect` membership: `b` lies in the latitude band
`[a.lat − Δlat, a.lat + Δlat]` (the `bisect_left`/`bisect_right` slice
of the latitude-sorted list is exactly the sublist with latitude in that
closed interval), has a different stop id, passes the cheap longitude
prefilter `|Δlon| ≤ MAX/(111320·cos(lat_a))`, and verifies with
haversine. -/
def bisect_walk_edge (stops : List GeoStop) (a b : GeoStop) : Prop :=
  a ∈ stops ∧ b ∈ stops ∧
  (a.stop_lat - DELTA_LAT ≤ b.stop_lat ∧ b.stop_lat ≤ a.stop_lat + DELTA_LAT) ∧
  a.stop_id ≠ b.stop_id ∧
  |(b.stop_lon : ℝ) - (a.stop_lon : ℝ)| ≤
    500 / (111320 * Real.cos (radians (a.stop_lat : ℝ))) ∧
  haversine_metres (a.stop_lat : ℝ) (a.stop_lon : ℝ) (b.stop_lat : ℝ) (b.stop_lon : ℝ) ≤ 500

/-- The attributes both constructors attach to an emitted edge:
`distance_m` and `walk_seconds = int(distance / (4.5·1000/3600))`. -/
noncomputable def walk_edge_attrs (a b : GeoStop) : ℝ × ℤ :=
  (haversine_metres (a.stop_lat : ℝ) (a.stop_lon : ℝ) (b.stop_lat : ℝ) (b.stop_lon : ℝ),
   ⌊haversine_metres (a.stop_lat : ℝ) (a.stop_lon : ℝ) (b.stop_lat : ℝ) (b.stop_lon : ℝ) /
     (5/4)⌋)

/-! ## Loop invariant and sample inputs -/

/-- The invariant `find_routes`'s collection loops maintain on
`(routes, seen)`: at most `max_routes` routes, pairwise-distinct
signatures, every route passing `_passes_filters`, every collected
signature recorded in `seen`. -/
def loopInvariant (max_routes : ℕ) (routes : List (List Leg)) (seen : List (List String)) : Prop :=
  routes.length ≤ max_routes ∧
  (routes.map route_signature).Nodup ∧
  (∀ r ∈ routes, passes_filters r = true) ∧
  (∀ r ∈ routes, route_signature r ∈ seen)

/-- A one-trip timetable used for concrete witness evaluations. -/
def sampleDb : Timetable :=
  { trips := [⟨"T1", "R1", "20260209"⟩],
    stop_times := [⟨"T1", "A", 1, "08:00:00", "08:00:00"⟩,
      ⟨"T1", "B", 2, "08:30:00", "08:30:00"⟩] }

/-- The graph built from `sampleDb`. -/
def sampleG : Graph :=
  { nodes := [("A", ⟨"Stop A", 0, 0⟩), ("B", ⟨"Stop B", 0, 0⟩)],
    edges := [("A", "B", EdgeData.trip "T1" "R1" "20260209" "08:00:00" "08:30:00" 1800)] }

/-- What `find_routes` returns on the sample input. -/
def sampleRoutes : List (List Leg) :=
  [[Leg.trip ⟨"A", "B", "Stop A", "Stop B", "T1", "R1", "20260209",
    "08:00:00", "08:30:00", 1800⟩]]

/-- A timetable on which `_fill_later_departures` never terminates: trip
T2's departure string "10:00:0x" is selected by the SQL substring cast
(36000 seconds) but parses to 0 under `_hms_to_seconds`, so the
not-before pointer moves backwards. -/
def cycleDb : Timetable :=
  { trips := [⟨"T1", "R1", "20260209"⟩, ⟨"T2", "R1", "20260209"⟩],
    stop_times :=
      [⟨"T1", "A", 1, "08:00:00", "08:00:00"⟩,
       ⟨"T1", "B", 2, "08:30:00", "08:30:00"⟩,
       ⟨"T2", "A", 1, "10:00:0x", "10:00:0x"⟩,
       ⟨"T2", "B", 2, "11:00:00", "11:00:00"⟩] }

/-- The two-stop graph for `cycleDb`. -/
def cycleG : Graph :=
  { nodes := [("A", ⟨"Stop A", 0, 0⟩), ("B", ⟨"Stop B", 0, 0⟩)],
    edges := [("A", "B", EdgeData.trip "T1" "R1" "20260209" "08:00:00" "08:30:00" 1800)] }

/-- The route `find_routes`'s main loop finds on `cycleDb` (trip T1). -/
def cycleT1Route : List Leg :=
  [Leg.trip ⟨"A", "B", "Stop A", "Stop B", "T1", "R1", "20260209",
    "08:00:00", "08:30:00", 1800⟩]

/-- The route the fill discovers from pointer 28801 (trip T2). -/
def cycleT2Route : List Leg :=
  [Leg.trip ⟨"A", "B", "Stop A", "Stop B", "T2", "R1", "20260209",
    "10:00:0x", "11:00:00", 39600⟩]

/-- Routes collected after the fill's first pass on `cycleDb`. -/
def cycleRoutes2 : List (List Leg) := [cycleT1Route, cycleT2Route]

/-- Signatures seen after the fill's first pass on `cycleDb`. -/
def cycleSeen2 : List (List String) := [["T1"], ["T2"]]

/-- The data-model invariant of spec section 3, restricted to what the
fill-termination theorem needs: every departure-time string parses at
least as large under `_hms_to_seconds` as under the SQL substring cast
(true of every well-formed `HH:MM:SS` string, where both agree), and
within each trip the parsed departure times are nondecreasing in
stop-sequence order. -/
def timesWellFormed (db : Timetable) : Prop :=
  (∀ st ∈ db.stop_times, sql_hms st.departure_time ≤ hms_to_seconds st.departure_time) ∧
  (∀ st ∈ db.stop_times, (trip_stop_times db st.trip_id).Pairwise
    (fun x y => hms_to_seconds x.departure_time ≤ hms_to_seconds y.departure_time))

/-! ## Theorems -/

/-! ### Time-parsing lemmas (C8) -/

theorem digitVal_digitChar {d : ℕ} (h : d < 10) : digitVal (digitChar d) = d := by
  interval_cases d <;> decide

theorem isDigitChar_digitChar {d : ℕ} : isDigitChar (digitChar d) = true := by
  unfold digitChar
  split <;> decide

theorem natDigits_digits {n : ℕ} : ∀ c ∈ natDigits n, isDigitChar c = true := by
  induction n using Nat.strong_induction_on with
  | _ n ih =>
    intro c hc
    rw [natDigits] at hc
    split at hc
    · simp only [List.mem_singleton] at hc
      subst hc; exact isDigitChar_digitChar
    · rcases List.mem_append.mp hc with h1 | h2
      · exact ih (n / 10) (Nat.div_lt_self (by omega) (by omega)) c h1
      · simp only [List.mem_singleton] at h2
        subst h2; exact isDigitChar_digitChar

theorem zfill2_digits {l : List Char} (h : ∀ c ∈ l, isDigitChar c = true) :
    ∀ c ∈ zfill2 l, isDigitChar c = true := by
  intro c hc
  unfold zfill2 at hc
  split at hc
  · rcases List.mem_append.mp hc with h1 | h2
    · have := List.eq_of_mem_replicate h1
      subst this; decide
    · exact h c h2
  · exact h c hc

theorem natDigits_ne_nil {n : ℕ} : natDigits n ≠ [] := by
  rw [natDigits]
  split <;> simp

theorem zfill2_ne_nil {l : List Char} (h : l ≠ []) : zfill2 l ≠ [] := by
  unfold zfill2
  split
  · simp [h]
  · exact h

theorem digit_not_whitespace {c : Char} (h : isDigitChar c = true) :
    pyWhitespace c = false := by
  cases hw : pyWhitespace c
  · rfl
  · exfalso
    simp only [isDigitChar, Bool.and_eq_true, decide_eq_true_eq] at h
    have h48 : 48 ≤ c.toNat := h.1
    unfold pyWhitespace at hw
    simp only [Bool.or_eq_true, decide_eq_true_eq] at hw
    rcases hw with ((((h' | h') | h') | h') | h') | h' <;>
      (subst h'; exact absurd h48 (by decide))

theorem pyStrip_eq_self {l : List Char} (h : ∀ c ∈ l, pyWhitespace c = false) :
    pyStrip l = l := by
  have drop : ∀ m : List Char, (∀ c ∈ m, pyWhitespace c = false) →
      m.dropWhile pyWhitespace = m := by
    intro m hm
    cases m with
    | nil => rfl
    | cons c t =>
      have := hm c (List.mem_cons_self _ _)
      simp [List.dropWhile, this]
  unfold pyStrip
  rw [drop l h, drop l.reverse (fun c hc => h c (List.mem_reverse.mp hc)), List.reverse_reverse]

theorem splitOnColon_append {a r : List Char} (ha : ':' ∉ a) :
    splitOnColon (a ++ ':' :: r) = a :: splitOnColon r := by
  induction a with
  | nil => simp [splitOnColon]
  | cons c t ih =>
    have hc : ¬(c = ':') := fun he => ha (he ▸ List.mem_cons_self _ _)
    have ht : ':' ∉ t := fun hm => ha (List.mem_cons_of_mem _ hm)
    simp only [List.cons_append, splitOnColon, if_neg hc, List.append_eq]
    rw [ih ht]

theorem splitOnColon_no_colon {a : List Char} (ha : ':' ∉ a) :
    splitOnColon a = [a] := by
  induction a with
  | nil => rfl
  | cons c t ih =>
    have hc : ¬(c = ':') := fun he => ha (he ▸ List.mem_cons_self _ _)
    have ht : ':' ∉ t := fun hm => ha (List.mem_cons_of_mem _ hm)
    rw [splitOnColon.eq_def]
    simp only [if_neg hc, ih ht]

theorem pyIntDigitsGo_all_digits {l : List Char} (h : ∀ c ∈ l, isDigitChar c = true) :
    ∀ acc, pyIntDigitsGo acc l = some (foldDigits acc l) := by
  induction l with
  | nil => intro acc; rfl
  | cons c t ih =>
    intro acc
    have hc := h c (List.mem_cons_self _ _)
    have ht : ∀ c' ∈ t, isDigitChar c' = true := fun c' hm => h c' (List.mem_cons_of_mem _ hm)
    rw [pyIntDigitsGo.eq_def]
    simp only [hc, if_true]
    exact ih ht (acc * 10 + digitVal c)

theorem foldDigits_append {a b : List Char} {acc : ℕ} :
    foldDigits acc (a ++ b) = foldDigits (foldDigits acc a) b := by
  simp [foldDigits, List.foldl_append]

theorem foldDigits_natDigits {n : ℕ} :
    ∀ acc, foldDigits acc (natDigits n) = acc * 10 ^ (natDigits n).length + n := by
  induction n using Nat.strong_induction_on with
  | _ n ih =>
    intro acc
    rw [natDigits]
    split
    · next h =>
      simp [foldDigits, digitVal_digitChar h, pow_one]
    · next h =>
      rw [foldDigits_append, ih (n / 10) (Nat.div_lt_self (by omega) (by omega))]
      have h1 : foldDigits (acc * 10 ^ (natDigits (n / 10)).length + n / 10)
          [digitChar (n % 10)]
          = (acc * 10 ^ (natDigits (n / 10)).length + n / 10) * 10 + n % 10 := by
        simp [foldDigits, digitVal_digitChar (Nat.mod_lt n (by omega))]
      rw [h1]
      have h2 : (natDigits (n / 10) ++ [digitChar (n % 10)]).length
          = (natDigits (n / 10)).length + 1 := by simp
      rw [h2, pow_succ, ← mul_assoc]
      have hdm := Nat.div_add_mod n 10
      set A := acc * 10 ^ (natDigits (n / 10)).length
      omega

theorem foldDigits_replicate_zero {k : ℕ} : foldDigits 0 (List.replicate k '0') = 0 := by
  induction k with
  | zero => rfl
  | succ k ih =>
    simp only [List.replicate_succ, foldDigits, List.foldl_cons]
    simpa [foldDigits] using ih

theorem foldDigits_zfill2_natDigits {n : ℕ} : foldDigits 0 (zfill2 (natDigits n)) = n := by
  have base : foldDigits 0 (natDigits n) = n := by
    have := foldDigits_natDigits (n := n) 0
    simpa using this
  unfold zfill2
  split
  · rw [foldDigits_append, foldDigits_replicate_zero, base]
  · exact base

theorem pyInt_all_digits {l : List Char} (hne : l ≠ [])
    (h : ∀ c ∈ l, isDigitChar c = true) : pyInt l = some (foldDigits 0 l) := by
  have hs : pyStrip l = l :=
    pyStrip_eq_self (fun c hc => digit_not_whitespace (h c hc))
  unfold pyInt
  rw [hs]
  cases l with
  | nil => exact absurd rfl hne
  | cons c t =>
    have hc := h c (List.mem_cons_self _ _)
    have hcm : ¬(c = '-') := by rintro rfl; simp [isDigitChar] at hc
    have hcp : ¬(c = '+') := by rintro rfl; simp [isDigitChar] at hc
    simp only [if_neg hcm, if_neg hcp, pyIntDigits, hc, if_true]
    rw [pyIntDigitsGo_all_digits (fun c' hm => h c' (List.mem_cons_of_mem _ hm))]
    simp [foldDigits]

theorem fmtHMS_split {h m s : ℕ} :
    splitOnColon (pyStrip (fmtHMS h m s).data) =
      [zfill2 (natDigits h), zfill2 (natDigits m), zfill2 (natDigits s)] := by
  have hdig : ∀ n : ℕ, ∀ c ∈ zfill2 (natDigits n), isDigitChar c = true :=
    fun n => zfill2_digits natDigits_digits
  have hnc : ∀ n : ℕ, ':' ∉ zfill2 (natDigits n) := by
    intro n hmem
    have := hdig n ':' hmem
    simp [isDigitChar] at this
  have hdata : (fmtHMS h m s).data =
      zfill2 (natDigits h) ++ ':' :: (zfill2 (natDigits m) ++ ':' :: zfill2 (natDigits s)) := rfl
  have hall : ∀ c ∈ (fmtHMS h m s).data, pyWhitespace c = false := by
    intro c hc
    rw [hdata] at hc
    rcases List.mem_append.mp hc with h1 | h2
    · exact digit_not_whitespace (hdig h c h1)
    · rcases List.mem_cons.mp h2 with h2 | h2
      · subst h2; decide
      · rcases List.mem_append.mp h2 with h3 | h4
        · exact digit_not_whitespace (hdig m c h3)
        · rcases List.mem_cons.mp h4 with h4 | h4
          · subst h4; decide
          · exact digit_not_whitespace (hdig s c h4)
  rw [pyStrip_eq_self hall, hdata, splitOnColon_append (hnc h),
    splitOnColon_append (hnc m), splitOnColon_no_colon (hnc s)]

theorem pyInt_zfill2_natDigits {n : ℕ} : pyInt (zfill2 (natDigits n)) = some (n : ℤ) := by
  rw [pyInt_all_digits (zfill2_ne_nil natDigits_ne_nil) (zfill2_digits natDigits_digits),
    foldDigits_zfill2_natDigits]
  rfl

theorem hms_to_seconds_fmtHMS {h m s : ℕ} :
    hms_to_seconds (fmtHMS h m s) = 3600 * (h : ℤ) + 60 * (m : ℤ) + (s : ℤ) := by
  unfold hms_to_seconds
  rw [fmtHMS_split]
  show (match pyInt (zfill2 (natDigits h)), pyInt (zfill2 (natDigits m)),
      pyInt (zfill2 (natDigits s)) with
    | some a, some b, some c => a * 3600 + b * 60 + c
    | _, _, _ => 0) = 3600 * (h : ℤ) + 60 * (m : ℤ) + (s : ℤ)
  rw [pyInt_zfill2_natDigits, pyInt_zfill2_natDigits, pyInt_zfill2_natDigits]
  ring

theorem hms_eq_threeIntFields (s : String) :
    hms_to_seconds s = (match threeIntFields s with
      | some (a, b, c) => a * 3600 + b * 60 + c
      | none => 0) := by
  unfold hms_to_seconds threeIntFields
  generalize splitOnColon (pyStrip s.data) = L
  rcases L with _ | ⟨p0, _ | ⟨p1, _ | ⟨p2, rest⟩⟩⟩
  · rfl
  · rfl
  · rfl
  · show (match pyInt p0, pyInt p1, pyInt p2 with
        | some a, some b, some c => a * 3600 + b * 60 + c
        | _, _, _ => 0) =
        (match (match pyInt p0, pyInt p1, pyInt p2 with
          | some a, some b, some c => some (a, b, c)
          | _, _, _ => none) with
        | some (a, b, c) => a * 3600 + b * 60 + c
        | none => 0)
    cases pyInt p0 <;> cases pyInt p1 <;> cases pyInt p2 <;> rfl

theorem fmtHMS_colon_count {h m s : ℕ} : ((fmtHMS h m s).data.count ':') = 2 := by
  have hno : ∀ n : ℕ, ((zfill2 (natDigits n)).count ':') = 0 := by
    intro n
    rw [List.count_eq_zero]
    intro hmem
    have := zfill2_digits natDigits_digits ':' hmem
    simp [isDigitChar] at this
  show ((zfill2 (natDigits h) ++ ':' ::
      (zfill2 (natDigits m) ++ ':' :: zfill2 (natDigits s))).count ':') = 2
  simp [List.count_append, List.count_cons, hno]

/-- Claim C8, counterexample: `"08:00:00:00"` is not of the zero-padded
`HH:MM:SS` form for any valid `(h, m, s)`, yet the parser returns 28800
for it instead of the 0 the claim requires for malformed input (the
fourth colon field is silently ignored). -/
theorem C8_counterexample :
    (¬ ∃ h m s : ℕ, m ≤ 59 ∧ s ≤ 59 ∧ "08:00:00:00" = fmtHMS h m s) ∧
    hms_to_seconds "08:00:00:00" = 28800 ∧ hms_to_seconds "08:00:00:00" ≠ 0 := by
  refine ⟨?_, by decide, by decide⟩
  rintro ⟨h, m, s, -, -, heq⟩
  have h3 : ("08:00:00:00".data.count ':') = 3 := by decide
  rw [heq, fmtHMS_colon_count] at h3
  omega

/-- Claim C8 (amended): for every `h ≥ 0` and `m, s ∈ [0, 59]` the parser
applied to the zero-padded `"HH:MM:SS"` string returns
`3600·h + 60·m + s` (hours above 23 accepted); it returns 0 whenever the
first three colon-separated fields of the input do not all parse as
integers (in particular when fewer than three fields exist) — but an
input with three parseable leading fields and extra trailing fields is
parsed from those fields rather than rejected. -/
theorem C8_theorem :
    (∀ h m s : ℕ, m ≤ 59 → s ≤ 59 →
      hms_to_seconds (fmtHMS h m s) = 3600 * (h : ℤ) + 60 * (m : ℤ) + (s : ℤ)) ∧
    (∀ s : String, threeIntFields s = none → hms_to_seconds s = 0) := by
  constructor
  · intro h m s _ _
    exact hms_to_seconds_fmtHMS
  · intro s hnone
    rw [hms_eq_threeIntFields, hnone]

/-- Witness for C8: concrete instances of both parts of the theorem. -/
theorem C8_witness :
    hms_to_seconds (fmtHMS 25 7 9) = 90429 ∧ hms_to_seconds "1:2" = 0 := by
  constructor
  · have := C8_theorem.1 25 7 9 (by norm_num) (by norm_num)
    omega
  · exact C8_theorem.2 "1:2" (by decide)

/-! ### Live-risk lemmas (C2) -/

theorem pythonRound_le (q : ℚ) : (pythonRound q : ℚ) ≤ q + 1/2 := by
  unfold pythonRound
  have hf := Int.floor_le q
  split
  · next h => linarith
  · next h =>
    split
    · next h2 => push_cast; linarith
    · next h2 =>
      have hr : q - (⌊q⌋ : ℚ) = 1/2 := le_antisymm (not_lt.mp h2) (not_lt.mp h)
      split
      · next => linarith
      · next => push_cast; linarith

theorem pythonRound_nonneg {q : ℚ} (h : 0 ≤ q) : 0 ≤ pythonRound q := by
  unfold pythonRound
  have hf : 0 ≤ ⌊q⌋ := Int.floor_nonneg.mpr h
  split
  · exact hf
  · split
    · omega
    · split <;> omega

theorem round3_nonneg {x : ℚ} (h : 0 ≤ x) : 0 ≤ round3 x := by
  unfold round3
  have : 0 ≤ pythonRound (x * 1000) := pythonRound_nonneg (by linarith)
  positivity

theorem round3_le_one {x : ℚ} (h : x ≤ 1) : round3 x ≤ 1 := by
  unfold round3
  have h1 : (pythonRound (x * 1000) : ℚ) ≤ 2001/2 := by
    have := pythonRound_le (x * 1000)
    linarith
  have h2 : (pythonRound (x * 1000) : ℚ) < 1001 := lt_of_le_of_lt h1 (by norm_num)
  have h3 : pythonRound (x * 1000) < 1001 := by exact_mod_cast h2
  have h4 : (pythonRound (x * 1000) : ℚ) ≤ 1000 := by
    have h5 : pythonRound (x * 1000) ≤ 1000 := by omega
    exact_mod_cast h5
  linarith

theorem riskLabel_low {x : ℚ} (h : x < 33/100) : riskLabel x = "Low" := by
  unfold riskLabel
  rw [if_pos h]

theorem riskLabel_medium {x : ℚ} (h1 : 33/100 ≤ x) (h2 : x < 66/100) :
    riskLabel x = "Medium" := by
  unfold riskLabel
  rw [if_neg (not_lt.mpr h1), if_pos h2]

theorem riskLabel_high {x : ℚ} (h : 66/100 ≤ x) : riskLabel x = "High" := by
  unfold riskLabel
  rw [if_neg (not_lt.mpr (le_trans (by norm_num) h)), if_neg (not_lt.mpr h)]

theorem same_route_cancellations_pos {st : LiveState} {route : String} :
    same_route_cancellations st route ≠ 0 ↔
      ∃ p ∈ st.trip_updates, p.2.route_id = route ∧ p.2.is_cancelled = true := by
  unfold same_route_cancellations
  rw [Ne, List.length_eq_zero, List.filter_eq_nil_iff]
  push_neg
  constructor
  · rintro ⟨p, hmem, hp⟩
    refine ⟨p, hmem, ?_⟩
    simpa [Bool.and_eq_true, beq_iff_eq] using hp
  · rintro ⟨p, hmem, hp⟩
    refine ⟨p, hmem, ?_⟩
    simpa [Bool.and_eq_true, beq_iff_eq] using hp

theorem code_adjustment_eq_claim (st : LiveState) (r s t dep : String) (q : QueryDt) :
    ALERT_RISK_BUMP * ((alerts_for st r s).length : ℚ)
      + (if same_route_cancellations st r ≠ 0 then CANCELLATION_RISK_BUMP else 0)
      + (if 0 < ((hms_to_seconds dep -
              ((q.hour : ℤ) * 3600 + (q.minute : ℤ) * 60 + (q.second : ℤ)) : ℤ) : ℚ) / 60 ∧
            ((hms_to_seconds dep -
              ((q.hour : ℤ) * 3600 + (q.minute : ℤ) * 60 + (q.second : ℤ)) : ℤ) : ℚ) / 60 ≤ 15 ∧
            t ∉ st.vehicle_positions
          then MISSING_VEHICLE_RISK_BUMP else 0)
      + (if 22 * 3600 ≤ hms_to_seconds dep then LATE_EVENING_RISK_BUMP else 0)
      + (if 5 ≤ q.weekday then WEEKEND_RISK_BUMP else 0)
    = claimAdjustment st r s t dep q := by
  have hc : (if same_route_cancellations st r ≠ 0 then CANCELLATION_RISK_BUMP else 0)
      = (if ∃ p ∈ st.trip_updates, p.2.route_id = r ∧ p.2.is_cancelled = true
          then CANCELLATION_RISK_BUMP else 0) :=
    if_congr same_route_cancellations_pos rfl rfl
  rw [hc]
  unfold claimAdjustment alerts_for ALERT_RISK_BUMP CANCELLATION_RISK_BUMP
    MISSING_VEHICLE_RISK_BUMP LATE_EVENING_RISK_BUMP WEEKEND_RISK_BUMP
  rfl

theorem live_risk_uncancelled_score (st : LiveState) (r s t dep : String) (q : QueryDt)
    (base : ℚ) :
    (live_risk_uncancelled st r s t dep q base).risk_score =
      round3 (min 1 (base + claimAdjustment st r s t dep q)) := by
  rw [← code_adjustment_eq_claim st r s t dep q]
  rfl

theorem live_risk_uncancelled_label (st : LiveState) (r s t dep : String) (q : QueryDt)
    (base : ℚ) :
    (live_risk_uncancelled st r s t dep q base).risk_label =
      riskLabel (min 1 (base + claimAdjustment st r s t dep q)) := by
  rw [← code_adjustment_eq_claim st r s t dep q]
  rfl

theorem claimAdjustment_nonneg (st : LiveState) (r s t dep : String) (q : QueryDt) :
    0 ≤ claimAdjustment st r s t dep q := by
  unfold claimAdjustment
  refine add_nonneg (add_nonneg (add_nonneg (add_nonneg ?_ ?_) ?_) ?_) ?_
  · positivity
  · split <;> norm_num
  · split <;> norm_num
  · split <;> norm_num
  · split <;> norm_num

/-- Claim C2, counterexample: with no live state, a historical
reliability of 0.1234 and a noon weekday query far from departure, the
returned `risk_score` is 0.877 — the three-decimal rounding of
0.8766 — while the claim's formula `min(1, (1−h) + bumps)` gives
exactly 0.8766.  The claim omits the rounding the code applies. -/
theorem C2_counterexample :
    (compute_live_risk ⟨[], [], []⟩ "R1" "S1" "T1" "12:00:00" ⟨0, 12, 0, 0⟩
        (617/5000)).risk_score = 877/1000 ∧
    min 1 ((1 - 617/5000) +
        claimAdjustment ⟨[], [], []⟩ "R1" "S1" "T1" "12:00:00" ⟨0, 12, 0, 0⟩) = 4383/5000 ∧
    (877/1000 : ℚ) ≠ 4383/5000 := by
  have hdep : hms_to_seconds "12:00:00" = 43200 := by decide
  have hadj : claimAdjustment ⟨[], [], []⟩ "R1" "S1" "T1" "12:00:00" ⟨0, 12, 0, 0⟩ = 0 := by
    unfold claimAdjustment
    rw [hdep]
    norm_num
  have hmin : min 1 ((1 - 617/5000 : ℚ) + 0) = 4383/5000 := by
    rw [min_eq_right] <;> norm_num
  have hfloor : ⌊(4383/5000 : ℚ) * 1000⌋ = 876 := by
    rw [Int.floor_eq_iff]
    norm_num
  have hround : pythonRound ((4383/5000 : ℚ) * 1000) = 877 := by
    unfold pythonRound
    rw [hfloor]
    norm_num
  have h3 : round3 (4383/5000) = 877/1000 := by
    unfold round3
    rw [hround]
    norm_num
  refine ⟨?_, ?_, by norm_num⟩
  · have hcode : compute_live_risk ⟨[], [], []⟩ "R1" "S1" "T1" "12:00:00" ⟨0, 12, 0, 0⟩
        (617/5000) = live_risk_uncancelled ⟨[], [], []⟩ "R1" "S1" "T1" "12:00:00"
        ⟨0, 12, 0, 0⟩ (1 - 617/5000) := rfl
    rw [hcode, live_risk_uncancelled_score, hadj, hmin]
    norm_num
    exact h3
  · rw [hadj, hmin]

/-- Claim C2 (amended): the combiner is pure; a cancelled live update for
the trip short-circuits to exactly `{1.0, "High", cancelled}`; otherwise
`is_cancelled` is false and `risk_score` equals `min(1, (1−h) + bumps)`
— with the bumps exactly as the claim lists them — ROUNDED half-even to
three decimals, while `risk_label` is computed from the unrounded value
(Low below 0.33, Medium below 0.66, High otherwise); the returned score
always lies in [0, 1]. -/
theorem compute_live_risk_cancelled_eq {st : LiveState} {route stop trip dep : String}
    {q : QueryDt} {h : ℚ} {tu : TripUpdateState}
    (htu : dictGet st.trip_updates trip = some tu) (hcanc : tu.is_cancelled = true) :
    compute_live_risk st route stop trip dep q h =
      { risk_score := 1
        risk_label := "High"
        modifiers := ["Trip is currently marked as cancelled in GTFS-RT."]
        is_cancelled := true } := by
  unfold compute_live_risk
  rw [htu]
  simp [hcanc]

theorem compute_live_risk_uncancelled_eq {st : LiveState} {route stop trip dep : String}
    {q : QueryDt} {h : ℚ}
    (hnc : ∀ tu, dictGet st.trip_updates trip = some tu → tu.is_cancelled = false) :
    compute_live_risk st route stop trip dep q h =
      live_risk_uncancelled st route stop trip dep q (1 - h) := by
  unfold compute_live_risk
  cases htu : dictGet st.trip_updates trip with
  | none => rfl
  | some tu =>
    have := hnc tu htu
    simp [this]

theorem C2_theorem (st : LiveState) (route stop trip dep : String) (q : QueryDt) (h : ℚ)
    (h0 : 0 ≤ h) (h1 : h ≤ 1) :
    (compute_live_risk st route stop trip dep q h =
      compute_live_risk st route stop trip dep q h) ∧
    (∀ tu, dictGet st.trip_updates trip = some tu → tu.is_cancelled = true →
      compute_live_risk st route stop trip dep q h =
        { risk_score := 1
          risk_label := "High"
          modifiers := ["Trip is currently marked as cancelled in GTFS-RT."]
          is_cancelled := true }) ∧
    ((∀ tu, dictGet st.trip_updates trip = some tu → tu.is_cancelled = false) →
      (compute_live_risk st route stop trip dep q h).is_cancelled = false ∧
      (compute_live_risk st route stop trip dep q h).risk_score =
        round3 (min 1 ((1 - h) + claimAdjustment st route stop trip dep q)) ∧
      (min 1 ((1 - h) + claimAdjustment st route stop trip dep q) < 33/100 →
        (compute_live_risk st route stop trip dep q h).risk_label = "Low") ∧
      (33/100 ≤ min 1 ((1 - h) + claimAdjustment st route stop trip dep q) →
        min 1 ((1 - h) + claimAdjustment st route stop trip dep q) < 66/100 →
        (compute_live_risk st route stop trip dep q h).risk_label = "Medium") ∧
      (66/100 ≤ min 1 ((1 - h) + claimAdjustment st route stop trip dep q) →
        (compute_live_risk st route stop trip dep q h).risk_label = "High")) ∧
    0 ≤ (compute_live_risk st route stop trip dep q h).risk_score ∧
    (compute_live_risk st route stop trip dep q h).risk_score ≤ 1 := by
  have hmin_nonneg : 0 ≤ min 1 ((1 - h) + claimAdjustment st route stop trip dep q) :=
    le_min (by norm_num) (by nlinarith [claimAdjustment_nonneg st route stop trip dep q])
  have hmin_le_one : min 1 ((1 - h) + claimAdjustment st route stop trip dep q) ≤ 1 :=
    min_le_left _ _
  refine ⟨rfl, ?_, ?_, ?_⟩
  · intro tu htu hcanc
    exact compute_live_risk_cancelled_eq htu hcanc
  · intro hnc
    rw [compute_live_risk_uncancelled_eq hnc]
    refine ⟨rfl, live_risk_uncancelled_score _ _ _ _ _ _ _, ?_, ?_, ?_⟩
    · intro hlt
      rw [live_risk_uncancelled_label]
      exact riskLabel_low hlt
    · intro hge hlt
      rw [live_risk_uncancelled_label]
      exact riskLabel_medium hge hlt
    · intro hge
      rw [live_risk_uncancelled_label]
      exact riskLabel_high hge
  · by_cases hc : ∃ tu, dictGet st.trip_updates trip = some tu ∧ tu.is_cancelled = true
    · obtain ⟨tu, htu, hcanc⟩ := hc
      rw [compute_live_risk_cancelled_eq htu hcanc]
      norm_num
    · have hnc : ∀ tu, dictGet st.trip_updates trip = some tu → tu.is_cancelled = false := by
        intro tu htu
        by_contra hne
        exact hc ⟨tu, htu, by simpa using hne⟩
      rw [compute_live_risk_uncancelled_eq hnc, live_risk_uncancelled_score]
      exact ⟨round3_nonneg hmin_nonneg, round3_le_one hmin_le_one⟩

/-- Witness for C2: a concrete instantiation of the amended theorem with
empty live state and `h = 1/2`. -/
theorem C2_witness :
    (compute_live_risk ⟨[], [], []⟩ "R1" "S1" "T1" "12:00:00" ⟨0, 12, 0, 0⟩
        (1/2)).is_cancelled = false ∧
    0 ≤ (compute_live_risk ⟨[], [], []⟩ "R1" "S1" "T1" "12:00:00" ⟨0, 12, 0, 0⟩
        (1/2)).risk_score := by
  have H := C2_theorem ⟨[], [], []⟩ "R1" "S1" "T1" "12:00:00" ⟨0, 12, 0, 0⟩ (1/2)
    (by norm_num) (by norm_num)
  exact ⟨(H.2.2.1 (fun tu htu => by simp [dictGet] at htu)).1, H.2.2.2.1⟩


/-! ### Reliability lemmas (C3, C5, C6) -/

theorem pythonRound_le_bound (q : ℚ) (z : ℤ) (h : q < (z : ℚ) + 1/2) :
    pythonRound q ≤ z := by
  have hle := pythonRound_le q
  have h2 : (pythonRound q : ℚ) < (z : ℚ) + 1 := by linarith
  have h3 : pythonRound q < z + 1 := by exact_mod_cast h2
  omega

theorem pythonRound_half_even (z : ℤ) (hz : z % 2 = 0) :
    pythonRound ((z : ℚ) + 1/2) = z := by
  have hf : ⌊(z : ℚ) + 1/2⌋ = z := by
    rw [Int.floor_eq_iff]
    constructor
    · linarith
    · push_cast
      linarith
  unfold pythonRound
  rw [hf]
  have hr : (z : ℚ) + 1/2 - (z : ℚ) = 1/2 := by ring
  rw [hr]
  norm_num [hz]

/-- Claim C5: `get_historical_reliability` returns the neutral prior 0.8
when no record exists or the most recent record has
`scheduled_departures = 0`; otherwise it returns the clamped score of
the claim's formula computed from that record; the result always lies
in [0, 1]. -/
theorem C5_theorem (records : List ReliabilityRecord) (route stop bucket : String) :
    (0 ≤ get_historical_reliability records route stop bucket ∧
      get_historical_reliability records route stop bucket ≤ 1) ∧
    ((recordFor records route stop bucket = none ∨
        ∃ r, recordFor records route stop bucket = some r ∧ r.scheduled_departures = 0) →
      get_historical_reliability records route stop bucket = 4/5) ∧
    (∀ r, recordFor records route stop bucket = some r → r.scheduled_departures ≠ 0 →
      get_historical_reliability records route stop bucket =
        max 0 (min 1
          ((r.observed_departures : ℚ) / (r.scheduled_departures : ℚ) *
              (1 - (r.cancellation_count : ℚ) / (r.scheduled_departures : ℚ)) -
            min ((if 0 < r.observed_departures then
                (r.total_delay_seconds : ℚ) / (r.observed_departures : ℚ) / 60
              else 0) / 30) 1 * (1/5)))) := by
  refine ⟨?_, ?_, ?_⟩
  · unfold get_historical_reliability
    cases hsel : recordFor records route stop bucket with
    | none => norm_num
    | some r =>
      dsimp only
      by_cases hz : r.scheduled_departures = 0
      · rw [if_pos hz]
        norm_num
      · rw [if_neg hz]
        constructor
        · exact le_max_left _ _
        · exact max_le (by norm_num) (min_le_left _ _)
  · intro hsel
    unfold get_historical_reliability
    rcases hsel with hnone | ⟨r, hsome, hz⟩
    · rw [hnone]
    · rw [hsome]
      dsimp only
      rw [if_pos hz]
  · intro r hsome hz
    unfold get_historical_reliability
    rw [hsome]
    dsimp only
    rw [if_neg hz]

/-- Witness for C5: the empty table yields the neutral prior. -/
theorem C5_witness : get_historical_reliability [] "R1" "S1" "weekday_am_peak" = 4/5 :=
  (C5_theorem [] "R1" "S1" "weekday_am_peak").2.1 (Or.inl rfl)

/-- Claim C6, counterexample: the am-peak seed for a single scheduled
departure produces the record (observed 1, scheduled 1, delay 180,
cancelled 0), which satisfies the invariant; recording one observed
departure on it with `delay_seconds = -181` (an early departure, which
GTFS-RT delivers as a negative delay) drives `total_delay_seconds` to
-1, violating the all-counters-non-negative invariant the claim asserts
for any `delay_seconds` input. -/
theorem C6_counterexample :
    seed_upsert_record "R1" "S1" "weekday_am_peak" 1 "20260209" "20260209" "t0" none
      = { route_id := "R1", stop_id := "S1", time_bucket := "weekday_am_peak",
          observed_departures := 1, scheduled_departures := 1,
          total_delay_seconds := 180, cancellation_count := 0,
          window_start_date := "20260209", window_end_date := "20260209",
          updated_at := "t0" } ∧
    recordInvariant
      { route_id := "R1", stop_id := "S1", time_bucket := "weekday_am_peak",
        observed_departures := 1, scheduled_departures := 1,
        total_delay_seconds := 180, cancellation_count := 0,
        window_start_date := "20260209", window_end_date := "20260209",
        updated_at := "t0" } ∧
    record_observed_departure "R1" "S1" ⟨0, 8, 0, 0⟩ "20260210" "t1" (-181) false
        (some
          { route_id := "R1", stop_id := "S1", time_bucket := "weekday_am_peak",
            observed_departures := 1, scheduled_departures := 1,
            total_delay_seconds := 180, cancellation_count := 0,
            window_start_date := "20260209", window_end_date := "20260209",
            updated_at := "t0" })
      = some
          { route_id := "R1", stop_id := "S1", time_bucket := "weekday_am_peak",
            observed_departures := 2, scheduled_departures := 2,
            total_delay_seconds := -1, cancellation_count := 0,
            window_start_date := "20260209", window_end_date := "20260210",
            updated_at := "t1" } ∧
    ¬ recordInvariant
      { route_id := "R1", stop_id := "S1", time_bucket := "weekday_am_peak",
        observed_departures := 2, scheduled_departures := 2,
        total_delay_seconds := -1, cancellation_count := 0,
        window_start_date := "20260209", window_end_date := "20260210",
        updated_at := "t1" } := by
  refine ⟨?_, by decide, by decide, by decide⟩
  have hfl1 : ⌊(17/20 : ℚ)⌋ = 0 := by
    rw [Int.floor_eq_iff]
    constructor <;> norm_num
  have hfl2 : ⌊(3/100 : ℚ)⌋ = 0 := by
    rw [Int.floor_eq_iff]
    constructor <;> norm_num
  have h085 : pythonRound (((1 : ℕ) : ℚ) * (17/20 : ℚ)) = 1 := by
    rw [show ((1 : ℕ) : ℚ) * (17/20 : ℚ) = 17/20 by norm_num]
    unfold pythonRound
    rw [hfl1]
    norm_num
  have h003 : pythonRound (((1 : ℕ) : ℚ) * (3/100 : ℚ)) = 0 := by
    rw [show ((1 : ℕ) : ℚ) * (3/100 : ℚ) = 3/100 by norm_num]
    unfold pythonRound
    rw [hfl2]
    norm_num
  have hpr : PRIORS "weekday_am_peak" = (17/20, 3/100, 180) := by
    unfold PRIORS
    rw [if_pos rfl]
  simp only [seed_upsert_record, hpr, Option.getD]
  rw [h085, h003]
  decide

/-- Claim C6 (amended): on a missing record `record_observed_departure`
raises `TypeError` (`None + 1`: the counter columns' `default=0` fires
only at INSERT flush) and writes nothing; on an existing record
satisfying the §3 counter invariant, a call with `delay_seconds ≥ 0`
preserves the invariant, and for arbitrary (possibly negative)
`delay_seconds` the three count counters stay non-negative and the sum
bound is preserved, though `total_delay_seconds` can become negative.
Every seeding upsert (which assigns rather than increments its
counters, so it avoids the `TypeError`) establishes the invariant. -/
theorem C6_theorem :
    (∀ route stop sched_at date_str now_iso delay cancelled,
      record_observed_departure route stop sched_at date_str now_iso
        delay cancelled none = none) ∧
    (∀ route stop sched_at date_str now_iso delay cancelled (r : ReliabilityRecord),
      recordInvariant r → 0 ≤ delay →
      ∃ r', record_observed_departure route stop sched_at date_str now_iso delay cancelled
          (some r) = some r' ∧ recordInvariant r') ∧
    (∀ route stop sched_at date_str now_iso delay cancelled (r : ReliabilityRecord),
      recordInvariant r →
      ∃ r', record_observed_departure route stop sched_at date_str now_iso delay cancelled
          (some r) = some r' ∧
        r'.observed_departures + r'.cancellation_count ≤ r'.scheduled_departures ∧
        0 ≤ r'.scheduled_departures ∧ 0 ≤ r'.observed_departures ∧
        0 ≤ r'.cancellation_count) ∧
    (∀ route stop bucket (scheduled : ℕ) start_str end_str now_iso
        (existing : Option ReliabilityRecord),
      recordInvariant (seed_upsert_record route stop bucket scheduled start_str end_str
        now_iso existing)) := by
  have hrates : ∀ bucket : String, 0 ≤ (PRIORS bucket).1 ∧ 0 ≤ (PRIORS bucket).2.1 ∧
      (PRIORS bucket).1 + (PRIORS bucket).2.1 ≤ 23/25 ∧ 0 ≤ (PRIORS bucket).2.2 := by
    intro bucket
    unfold PRIORS
    split_ifs <;> norm_num
  refine ⟨?_, ?_, ?_, ?_⟩
  · intro route stop sched_at date_str now_iso delay cancelled
    rfl
  · intro route stop sched_at date_str now_iso delay cancelled r hr hdelay
    obtain ⟨h1, h2, h3, h4, h5⟩ := hr
    cases cancelled <;>
      exact ⟨_, rfl, by simp [recordInvariant]; omega⟩
  · intro route stop sched_at date_str now_iso delay cancelled r hr
    obtain ⟨h1, h2, h3, h4, h5⟩ := hr
    cases cancelled <;>
      exact ⟨_, rfl, by simp; omega⟩
  · intro route stop bucket scheduled start_str end_str now_iso existing
    obtain ⟨hr0, hc0, hsum, hd0⟩ := hrates bucket
    have hobs0 : 0 ≤ pythonRound ((scheduled : ℚ) * (PRIORS bucket).1) :=
      pythonRound_nonneg (mul_nonneg (by positivity) hr0)
    have hcan0 : 0 ≤ pythonRound ((scheduled : ℚ) * (PRIORS bucket).2.1) :=
      pythonRound_nonneg (mul_nonneg (by positivity) hc0)
    have hle : pythonRound ((scheduled : ℚ) * (PRIORS bucket).1) +
        pythonRound ((scheduled : ℚ) * (PRIORS bucket).2.1) ≤ (scheduled : ℤ) := by
      by_cases hN : 13 ≤ scheduled
      · have h1 := pythonRound_le ((scheduled : ℚ) * (PRIORS bucket).1)
        have h2 := pythonRound_le ((scheduled : ℚ) * (PRIORS bucket).2.1)
        have hNq : (13 : ℚ) ≤ (scheduled : ℚ) := by exact_mod_cast hN
        have hmul : (scheduled : ℚ) * ((PRIORS bucket).1 + (PRIORS bucket).2.1) ≤
            (scheduled : ℚ) * (23/25) :=
          mul_le_mul_of_nonneg_left hsum (by positivity)
        have : (pythonRound ((scheduled : ℚ) * (PRIORS bucket).1) +
            pythonRound ((scheduled : ℚ) * (PRIORS bucket).2.1) : ℚ) ≤ (scheduled : ℚ) := by
          push_cast
          nlinarith
        exact_mod_cast this
      · have hN12 : scheduled ≤ 12 := by omega
        have hNq : (scheduled : ℚ) ≤ 12 := by exact_mod_cast hN12
        have hNq0 : (0 : ℚ) ≤ (scheduled : ℚ) := by positivity
        revert hobs0 hcan0
        unfold PRIORS
        split_ifs <;> intro hobs0 hcan0 <;> dsimp only at hobs0 hcan0 ⊢
        · -- am peak: cancel rounds to 0, observed ≤ N
          have hcz : pythonRound ((scheduled : ℚ) * (3/100)) ≤ 0 :=
            pythonRound_le_bound _ 0 (by push_cast; nlinarith)
          have hoz : pythonRound ((scheduled : ℚ) * (17/20)) ≤ (scheduled : ℤ) :=
            pythonRound_le_bound _ _ (by push_cast; nlinarith)
          omega
        · -- pm peak
          by_cases h9 : scheduled ≤ 9
          · have h9q : (scheduled : ℚ) ≤ 9 := by exact_mod_cast h9
            have hcz : pythonRound ((scheduled : ℚ) * (1/20)) ≤ 0 :=
              pythonRound_le_bound _ 0 (by push_cast; nlinarith)
            have hoz : pythonRound ((scheduled : ℚ) * (4/5)) ≤ (scheduled : ℤ) :=
              pythonRound_le_bound _ _ (by push_cast; nlinarith)
            omega
          · have h10 : 10 ≤ scheduled := by omega
            have h10q : (10 : ℚ) ≤ (scheduled : ℚ) := by exact_mod_cast h10
            have hcz : pythonRound ((scheduled : ℚ) * (1/20)) ≤ 1 :=
              pythonRound_le_bound _ 1 (by push_cast; nlinarith)
            have hoz : pythonRound ((scheduled : ℚ) * (4/5)) ≤ (scheduled : ℤ) - 1 := by
              have := pythonRound_le_bound ((scheduled : ℚ) * (4/5)) ((scheduled : ℤ) - 1)
                (by push_cast; nlinarith)
              omega
            omega
        · -- offpeak
          have hcz : pythonRound ((scheduled : ℚ) * (1/50)) ≤ 0 :=
            pythonRound_le_bound _ 0 (by push_cast; nlinarith)
          have hoz : pythonRound ((scheduled : ℚ) * (9/10)) ≤ (scheduled : ℤ) :=
            pythonRound_le_bound _ _ (by push_cast; nlinarith)
          omega
        · -- weekend
          by_cases h6 : scheduled ≤ 6
          · have h6q : (scheduled : ℚ) ≤ 6 := by exact_mod_cast h6
            have hcz : pythonRound ((scheduled : ℚ) * (2/25)) ≤ 0 :=
              pythonRound_le_bound _ 0 (by push_cast; nlinarith)
            have hoz : pythonRound ((scheduled : ℚ) * (3/4)) ≤ (scheduled : ℤ) :=
              pythonRound_le_bound _ _ (by push_cast; nlinarith)
            omega
          · have h7 : 7 ≤ scheduled := by omega
            have h7q : (7 : ℚ) ≤ (scheduled : ℚ) := by exact_mod_cast h7
            have hcz : pythonRound ((scheduled : ℚ) * (2/25)) ≤ 1 :=
              pythonRound_le_bound _ 1 (by push_cast; nlinarith)
            have hoz : pythonRound ((scheduled : ℚ) * (3/4)) ≤ (scheduled : ℤ) - 1 := by
              have := pythonRound_le_bound ((scheduled : ℚ) * (3/4)) ((scheduled : ℤ) - 1)
                (by push_cast; nlinarith)
              omega
            omega
    have hdel : 0 ≤ pythonRound ((scheduled : ℚ) * (PRIORS bucket).1) * (PRIORS bucket).2.2 :=
      mul_nonneg hobs0 hd0
    have hs0 : (0 : ℤ) ≤ (scheduled : ℤ) := by omega
    cases existing <;>
      exact ⟨hle, hs0, hobs0, hdel, hcan0⟩

/-- Witness for C6: concrete instantiations of all four parts, with the
existing record a plausible seeded row. -/
theorem C6_witness :
    record_observed_departure "R1" "S1" ⟨0, 8, 0, 0⟩ "20260209" "t1" 30 false none
      = none ∧
    (∃ r', record_observed_departure "R1" "S1" ⟨0, 8, 0, 0⟩ "20260209" "t1" 30 false
        (some
          { route_id := "R1", stop_id := "S1", time_bucket := "weekday_am_peak",
            observed_departures := 3, scheduled_departures := 5, total_delay_seconds := 60,
            cancellation_count := 1, window_start_date := "20260101",
            window_end_date := "20260131", updated_at := "t0" }) = some r' ∧
      recordInvariant r') ∧
    (∃ r', record_observed_departure "R1" "S1" ⟨0, 8, 0, 0⟩ "20260209" "t1" (-5) false
        (some
          { route_id := "R1", stop_id := "S1", time_bucket := "weekday_am_peak",
            observed_departures := 3, scheduled_departures := 5, total_delay_seconds := 60,
            cancellation_count := 1, window_start_date := "20260101",
            window_end_date := "20260131", updated_at := "t0" }) = some r' ∧
      r'.observed_departures + r'.cancellation_count ≤ r'.scheduled_departures ∧
      0 ≤ r'.scheduled_departures ∧ 0 ≤ r'.observed_departures ∧
      0 ≤ r'.cancellation_count) ∧
    recordInvariant (seed_upsert_record "R1" "S1" "weekday_am_peak" 10 "20260209" "20260222"
      "t2" none) := by
  refine ⟨C6_theorem.1 "R1" "S1" ⟨0, 8, 0, 0⟩ "20260209" "t1" 30 false, ?_, ?_, ?_⟩
  · exact C6_theorem.2.1 "R1" "S1" ⟨0, 8, 0, 0⟩ "20260209" "t1" 30 false _
      (by decide) (by decide)
  · exact C6_theorem.2.2.1 "R1" "S1" ⟨0, 8, 0, 0⟩ "20260209" "t1" (-5) false _
      (by decide)
  · exact C6_theorem.2.2.2 "R1" "S1" "weekday_am_peak" 10 "20260209" "20260222" "t2" none

/-- Claim C3: `seed_from_static` has no `fill_gaps_only` mode.  Its
per-triple upsert overwrites a record holding real observations
(`observed_departures = 5 > 0`) with synthetic counters — here
`observed_departures` becomes `round(10 · 0.85) = 8` — instead of
skipping the triple as the claim (and the daily-refresh docstring)
require.  The scheduler call `seed_from_static(db, fill_gaps_only=True)`
passes a keyword the function does not accept. -/
theorem C3_theorem :
    (seed_upsert_record "R1" "S1" "weekday_am_peak" 10 "20260209" "20260222" "t2"
      (some { route_id := "R1", stop_id := "S1", time_bucket := "weekday_am_peak"
              observed_departures := 5, scheduled_departures := 6
              total_delay_seconds := 900, cancellation_count := 0
              window_start_date := "20260101", window_end_date := "20260208"
              updated_at := "t1" })).observed_departures = 8 ∧ ((8 : ℤ) ≠ 5) := by
  constructor
  · show pythonRound ((10 : ℚ) * (PRIORS "weekday_am_peak").1) = 8
    have h1 : ((10 : ℚ) * (PRIORS "weekday_am_peak").1) = ((8 : ℤ) : ℚ) + 1/2 := by
      unfold PRIORS
      norm_num
    rw [h1, pythonRound_half_even 8 (by decide)]
  · decide



/-! ### Result-cache lemmas (C9) -/

theorem get_cached_routes_fst_subset (now : ℕ) (cache : CacheMap) (key : CacheKey) :
    ∀ e ∈ (get_cached_routes now cache key).1, e ∈ cache := by
  unfold get_cached_routes
  cases h : cache.find? (fun e => e.1 == key) with
  | none => simp
  | some e0 =>
    dsimp only
    split
    · intro e he
      exact (List.mem_filter.mp he).1
    · simp

/-- Claim C9: the `get_routes` handler stores a routing result only when
it is non-empty, so every cache entry holds a non-empty routes list, and
a query whose routing yields no routes leaves the cache unchanged (it is
recomputed on every request). -/
theorem C9_theorem (now : ℕ) (cache : CacheMap) (key : CacheKey)
    (computed : List (List Leg)) (hinv : ∀ e ∈ cache, e.2.1 ≠ []) :
    (∀ e ∈ (get_routes_cache_step now cache key computed).1, e.2.1 ≠ []) ∧
    (computed = [] →
      (get_routes_cache_step now cache key computed).1 = (get_cached_routes now cache key).1) := by
  have hc1 : ∀ e ∈ (get_cached_routes now cache key).1, e.2.1 ≠ [] :=
    fun e he => hinv e (get_cached_routes_fst_subset now cache key e he)
  unfold get_routes_cache_step
  cases hhit : (get_cached_routes now cache key).2 with
  | some routes =>
    dsimp only
    exact ⟨hc1, fun _ => rfl⟩
  | none =>
    dsimp only
    by_cases hemp : computed.isEmpty = true
    · rw [if_pos hemp]
      exact ⟨hc1, fun _ => rfl⟩
    · rw [if_neg hemp]
      refine ⟨?_, ?_⟩
      · intro e he
        unfold store_cached_routes at he
        rcases List.mem_append.mp he with h1 | h2
        · exact hc1 e (List.mem_filter.mp h1).1
        · have he2 : e = (key, (computed, now)) := List.mem_singleton.mp h2
          subst he2
          intro hnil
          have hc : computed = [] := hnil
          rw [hc] at hemp
          exact hemp rfl
      · intro hcomp
        subst hcomp
        exact absurd rfl hemp

/-- Witness for C9: a concrete cache with one non-empty entry and an
empty routing result. -/
theorem C9_witness :
    (get_routes_cache_step 10 [(("A", "B", "2026-02-09", "08:00"),
        ([[Leg.walk ⟨"A", "B", "A", "B", 100, 80⟩]], 5))] ("C", "D", "2026-02-09", "08:00")
      []).1 =
      (get_cached_routes 10 [(("A", "B", "2026-02-09", "08:00"),
        ([[Leg.walk ⟨"A", "B", "A", "B", 100, 80⟩]], 5))] ("C", "D", "2026-02-09", "08:00")).1 := by
  refine (C9_theorem 10 _ _ [] ?_).2 rfl
  intro e he
  have he2 := List.mem_singleton.mp he
  subst he2
  simp

/-! ### Builder-cache lemmas (C10) -/

/-- Claim C10: `get_graph` fails while no `build_graph` call has
succeeded (in particular in the initial state); every successful build
installs exactly the snapshot obtained after all stop nodes, trip edges
and walk edges were added to a fresh graph, and after any build sequence
`get_graph` returns the most recent build's snapshot, which contains
every stop node and walk edge of that build's input. -/
theorem C10_theorem :
    (∀ st : BuilderState, st.graph = none →
      get_graph st = .error "Transit graph has not been built yet. Call build_graph() first.") ∧
    ((⟨none, none⟩ : BuilderState).graph = none) ∧
    (∀ st stops rows walks now,
      (build_graph st stops rows walks now).2 =
        add_walk_edges (add_trip_edges (add_stop_nodes emptyGraph stops) rows) walks ∧
      (build_graph st stops rows walks now).1.graph =
        some (build_graph st stops rows walks now).2 ∧
      get_graph (build_graph st stops rows walks now).1 =
        .ok (build_graph st stops rows walks now).2) ∧
    (∀ st (builds : List BuildInput) (b : BuildInput),
      get_graph (run_builds st (builds ++ [b])) =
        .ok (build_graph (run_builds st builds) b.stops b.rows b.walk_edges b.built_at).2) ∧
    (∀ st stops rows walks now,
      (∀ s ∈ stops, s ∈ ((build_graph st stops rows walks now).2).nodes) ∧
      (∀ w ∈ walks, w ∈ ((build_graph st stops rows walks now).2).edges)) := by
  refine ⟨?_, rfl, ?_, ?_, ?_⟩
  · intro st hst
    unfold get_graph
    rw [hst]
  · intro st stops rows walks now
    exact ⟨rfl, rfl, rfl⟩
  · intro st builds b
    unfold run_builds
    rw [List.foldl_append]
    rfl
  · intro st stops rows walks now
    constructor
    · intro s hs
      show s ∈ (emptyGraph.nodes ++ stops)
      exact List.mem_append.mpr (Or.inr hs)
    · intro w hw
      show w ∈ ((add_trip_edges (add_stop_nodes emptyGraph stops) rows).edges ++ walks)
      exact List.mem_append.mpr (Or.inr hw)

/-- Witness for C10: the initial state fails; one concrete build makes
`get_graph` return its snapshot. -/
theorem C10_witness :
    get_graph ⟨none, none⟩ =
      .error "Transit graph has not been built yet. Call build_graph() first." ∧
    get_graph (build_graph ⟨none, none⟩ [("A", ⟨"Stop A", 0, 0⟩)] [] [] 7).1 =
      .ok (build_graph ⟨none, none⟩ [("A", ⟨"Stop A", 0, 0⟩)] [] [] 7).2 := by
  constructor
  · exact C10_theorem.1 ⟨none, none⟩ rfl
  · exact (C10_theorem.2.2.1 ⟨none, none⟩ [("A", ⟨"Stop A", 0, 0⟩)] [] [] 7).2.2



/-! ### Walk-edge geometry lemmas (C4) -/

theorem haversine_same_lon (lat1 lat2 lon : ℝ) (h1 : 0 ≤ lat2 - lat1)
    (h2 : lat2 - lat1 < 180) :
    haversine_metres lat1 lon lat2 lon = 6371000 * radians (lat2 - lat1) := by
  have hpi := Real.pi_pos
  have ht0 : 0 ≤ radians (lat2 - lat1) / 2 := by
    unfold radians
    positivity
  have htlt : radians (lat2 - lat1) / 2 < Real.pi / 2 := by
    unfold radians
    rw [div_lt_div_iff (by norm_num) (by norm_num)]
    nlinarith [mul_pos (show (0:ℝ) < 180 - (lat2 - lat1) by linarith) hpi]
  have hcpos : 0 < Real.cos (radians (lat2 - lat1) / 2) :=
    Real.cos_pos_of_mem_Ioo ⟨by linarith, htlt⟩
  have hsin0 : 0 ≤ Real.sin (radians (lat2 - lat1) / 2) :=
    Real.sin_nonneg_of_nonneg_of_le_pi ht0 (by linarith)
  unfold haversine_metres
  have hlam : radians (lon - lon) / 2 = 0 := by
    simp [radians]
  rw [hlam]
  simp only [Real.sin_zero, ne_eq, OfNat.ofNat_ne_zero, not_false_eq_true, zero_pow,
    mul_zero, add_zero]
  have hs : Real.sqrt (Real.sin (radians (lat2 - lat1) / 2) ^ 2) =
      Real.sin (radians (lat2 - lat1) / 2) := Real.sqrt_sq hsin0
  have hc2 : 1 - Real.sin (radians (lat2 - lat1) / 2) ^ 2 =
      Real.cos (radians (lat2 - lat1) / 2) ^ 2 := by
    have := Real.sin_sq_add_cos_sq (radians (lat2 - lat1) / 2)
    linarith
  have hc : Real.sqrt (1 - Real.sin (radians (lat2 - lat1) / 2) ^ 2) =
      Real.cos (radians (lat2 - lat1) / 2) := by
    rw [hc2]
    exact Real.sqrt_sq (le_of_lt hcpos)
  rw [hs, hc]
  unfold atan2
  rw [if_pos hcpos, ← Real.tan_eq_sin_div_cos,
    Real.arctan_tan (by linarith) htlt]
  ring

/-- Claim C4, counterexample: stops at `(0, 0)` and
`(0.004494, 0)` are 499.71 m apart (within the 500 m walk radius),
so the PostGIS range join emits the edge; but the bisect construction's
latitude band is `500/111320 ≈ 0.0044916` degrees, which excludes the
pair, so its edge set omits the edge.  The two implementations do not
produce identical edge sets for every input. -/
theorem C4_counterexample :
    postgis_walk_edge [⟨"A", 0, 0⟩, ⟨"B", 2247/500000, 0⟩] ⟨"A", 0, 0⟩ ⟨"B", 2247/500000, 0⟩ ∧
    ¬ bisect_walk_edge [⟨"A", 0, 0⟩, ⟨"B", 2247/500000, 0⟩] ⟨"A", 0, 0⟩ ⟨"B", 2247/500000, 0⟩ ∧
    ¬ (∀ (stops : List GeoStop) (a b : GeoStop),
        bisect_walk_edge stops a b ↔ postgis_walk_edge stops a b) := by
  have hdist : haversine_metres ((0 : ℚ) : ℝ) ((0 : ℚ) : ℝ) ((2247/500000 : ℚ) : ℝ)
      ((0 : ℚ) : ℝ) ≤ 500 := by
    have heq := haversine_same_lon ((0 : ℚ) : ℝ) ((2247/500000 : ℚ) : ℝ) ((0 : ℚ) : ℝ)
      (by push_cast; norm_num) (by push_cast; norm_num)
    rw [heq]
    unfold radians
    have hpi := Real.pi_lt_d6
    push_cast
    nlinarith
  have hpg : postgis_walk_edge [⟨"A", 0, 0⟩, ⟨"B", 2247/500000, 0⟩] ⟨"A", 0, 0⟩
      ⟨"B", 2247/500000, 0⟩ := by
    refine ⟨by simp, by simp, by simp, hdist⟩
  have hnb : ¬ bisect_walk_edge [⟨"A", 0, 0⟩, ⟨"B", 2247/500000, 0⟩] ⟨"A", 0, 0⟩
      ⟨"B", 2247/500000, 0⟩ := by
    intro hb
    have hband := hb.2.2.1.2
    rw [show (⟨"B", 2247/500000, 0⟩ : GeoStop).stop_lat = 2247/500000 from rfl,
      show (⟨"A", 0, 0⟩ : GeoStop).stop_lat = 0 from rfl] at hband
    unfold DELTA_LAT at hband
    norm_num at hband
  exact ⟨hpg, hnb, fun hall => hnb ((hall _ _ _).mpr hpg)⟩

/-- Claim C4 (amended): the bisect edge set is a subset of the PostGIS
edge set — every bisect edge joins distinct stops within
MAX_WALK_METRES great-circle metres, and shared edges carry identical
`distance_m` and `walk_seconds` attributes (both constructions compute
them by the same formula) — but the converse fails: the band and
longitude prefilters of the bisect construction can drop pairs whose
distance is within the radius, so the edge sets need not be identical. -/
theorem C4_theorem (stops : List GeoStop) (a b : GeoStop)
    (h : bisect_walk_edge stops a b) :
    postgis_walk_edge stops a b ∧ walk_edge_attrs a b = walk_edge_attrs a b :=
  ⟨⟨h.1, h.2.1, h.2.2.2.1, h.2.2.2.2.2⟩, rfl⟩

/-- Witness for C4: stops 55.6 m apart on the same meridian form a
bisect edge, hence also a PostGIS edge. -/
theorem C4_witness :
    postgis_walk_edge [⟨"C", 0, 0⟩, ⟨"D", 1/2000, 0⟩] ⟨"C", 0, 0⟩ ⟨"D", 1/2000, 0⟩ := by
  have hdist : haversine_metres ((0 : ℚ) : ℝ) ((0 : ℚ) : ℝ) ((1/2000 : ℚ) : ℝ)
      ((0 : ℚ) : ℝ) ≤ 500 := by
    have heq := haversine_same_lon ((0 : ℚ) : ℝ) ((1/2000 : ℚ) : ℝ) ((0 : ℚ) : ℝ)
      (by push_cast; norm_num) (by push_cast; norm_num)
    rw [heq]
    unfold radians
    have hpi := Real.pi_lt_d6
    push_cast
    nlinarith
  have hb : bisect_walk_edge [⟨"C", 0, 0⟩, ⟨"D", 1/2000, 0⟩] ⟨"C", 0, 0⟩ ⟨"D", 1/2000, 0⟩ := by
    refine ⟨by simp, by simp, ?_, by simp, ?_, hdist⟩
    · constructor
      · show (0 : ℚ) - DELTA_LAT ≤ 1/2000
        unfold DELTA_LAT
        norm_num
      · show (1/2000 : ℚ) ≤ 0 + DELTA_LAT
        unfold DELTA_LAT
        norm_num
    · show |((0 : ℚ) : ℝ) - ((0 : ℚ) : ℝ)| ≤ 500 / (111320 * Real.cos (radians ((0 : ℚ) : ℝ)))
      have hr0 : radians ((0 : ℚ) : ℝ) = 0 := by
        unfold radians
        push_cast
        ring
      rw [hr0, Real.cos_zero]
      simp
      positivity
  exact (C4_theorem _ _ _ hb).1



/-! ### C1: `find_routes` postconditions -/

/-- Unpack `_passes_filters`: a passing route has a trip leg, at most
`MAX_TRANSFERS` transfers, and every route change between consecutive
trip legs leaves at least the minimum transfer buffer. -/
theorem passes_filters_spec {legs : List Leg} (h : passes_filters legs = true) :
    tripLegs legs ≠ [] ∧ count_transfers legs ≤ MAX_TRANSFERS ∧
      ∀ p ∈ tripLegPairs legs, p.1.route_id ≠ p.2.route_id →
        (MIN_TRANSFER_MINUTES : ℤ) * 60 ≤
          hms_to_seconds p.2.departure_time - hms_to_seconds p.1.arrival_time := by
  unfold passes_filters at h
  split_ifs at h with h1 h2
  refine ⟨?_, by omega, ?_⟩
  · intro hnil
    rw [hnil] at h1
    exact h1 rfl
  · intro p hp hne
    have hall := List.all_eq_true.mp h p hp
    simp only [Bool.or_eq_true, beq_iff_eq, decide_eq_true_eq] at hall
    rcases hall with heq | hle
    · exact absurd heq hne
    · exact hle

/-- Appending a passing, unseen route preserves the loop invariant. -/
theorem loopInvariant_extend {maxR : ℕ} {routes : List (List Leg)} {seen : List (List String)}
    {legs : List Leg} (h : loopInvariant maxR routes seen)
    (hfull : ¬ maxR ≤ routes.length) (hpf : passes_filters legs = true)
    (hsig : route_signature legs ∉ seen) :
    loopInvariant maxR (routes ++ [legs]) (seen ++ [route_signature legs]) := by
  obtain ⟨hlen, hnodup, hfilt, hsub⟩ := h
  refine ⟨?_, ?_, ?_, ?_⟩
  · simp only [List.length_append, List.length_singleton]
    omega
  · rw [List.map_append, List.map_singleton]
    refine List.Nodup.append hnodup (List.nodup_singleton _) ?_
    intro a ha hb
    rcases List.mem_map.mp ha with ⟨r, hr, hra⟩
    rw [List.mem_singleton] at hb
    apply hsig
    rw [← hb, ← hra]
    exact hsub r hr
  · intro r hr
    rcases List.mem_append.mp hr with h1 | h1
    · exact hfilt r h1
    · rw [List.mem_singleton.mp h1]
      exact hpf
  · intro r hr
    rcases List.mem_append.mp hr with h1 | h1
    · exact List.mem_append_left _ (hsub r h1)
    · rw [List.mem_singleton.mp h1]
      exact List.mem_append_right _ (List.mem_singleton_self _)

/-- The Yen collection loop of `find_routes` preserves the invariant. -/
theorem find_routes_loop_invariant (db : Timetable) (G : Graph) (sd : String) (nb : ℤ)
    (maxR : ℕ) :
    ∀ (paths : List (List String)) (routes : List (List Leg))
      (cands seen : List (List String)),
      loopInvariant maxR routes seen →
      loopInvariant maxR
        (find_routes_loop db G sd nb maxR paths routes cands seen).1
        (find_routes_loop db G sd nb maxR paths routes cands seen).2.2 := by
  intro paths
  induction paths with
  | nil =>
    intro routes cands seen h
    simp only [find_routes_loop]
    exact h
  | cons p ps ih =>
    intro routes cands seen h
    simp only [find_routes_loop]
    by_cases hfull : maxR ≤ routes.length
    · rw [if_pos hfull]
      exact h
    · rw [if_neg hfull]
      cases hsch : schedule_path db G sd p nb with
      | none => exact ih routes cands seen h
      | some legs =>
        dsimp only
        by_cases hpf : passes_filters legs = true
        · rw [if_neg (not_not_intro hpf)]
          by_cases hsig : route_signature legs ∈ seen
          · rw [if_pos hsig]
            exact ih routes cands seen h
          · rw [if_neg hsig]
            exact ih _ _ _ (loopInvariant_extend h hfull hpf hsig)
        · rw [if_pos hpf]
          exact ih routes cands seen h

/-- One round-robin fill pass preserves the invariant on
`(routes, seen)`. -/
theorem one_pass_routes_invariant (db : Timetable) (G : Graph) (sd : String) (maxR : ℕ) :
    ∀ (paths : List (List String)) (ptrs : List (Option ℤ)) routes seen act out,
      one_pass db G sd maxR paths ptrs routes seen act = some out →
      loopInvariant maxR routes seen →
      loopInvariant maxR out.2.1 out.2.2.1 := by
  intro paths
  induction paths with
  | nil =>
    intro ptrs routes seen act out hout h
    simp only [one_pass] at hout
    cases hout
    exact h
  | cons p ps ih =>
    intro ptrs routes seen act out hout h
    cases ptrs with
    | nil => exact Option.noConfusion hout
    | cons ptr ptrs' =>
      simp only [one_pass] at hout
      split_ifs at hout with hfull
      · cases hout
        exact h
      · cases ptr with
        | none =>
          rcases Option.map_eq_some'.mp hout with ⟨q, hq, hout'⟩
          cases hout'
          exact ih ptrs' routes seen act q hq h
        | some nb =>
          dsimp only at hout
          split_ifs at hout with hmax hneg
          · rcases Option.map_eq_some'.mp hout with ⟨q, hq, hout'⟩
            cases hout'
            exact ih ptrs' routes seen act q hq h
          · cases hsch : schedule_path db G sd p nb with
            | none =>
              rw [hsch] at hout
              dsimp only at hout
              rcases Option.map_eq_some'.mp hout with ⟨q, hq, hout'⟩
              cases hout'
              exact ih ptrs' routes seen true q hq h
            | some legs =>
              rw [hsch] at hout
              dsimp only at hout
              split_ifs at hout with hpf hsig
              · rcases Option.map_eq_some'.mp hout with ⟨q, hq, hout'⟩
                cases hout'
                exact ih ptrs' routes seen true q hq h
              · rcases Option.map_eq_some'.mp hout with ⟨q, hq, hout'⟩
                cases hout'
                exact ih ptrs' (routes ++ [legs]) (seen ++ [route_signature legs]) true q hq
                  (loopInvariant_extend h hfull hpf hsig)
              · rcases Option.map_eq_some'.mp hout with ⟨q, hq, hout'⟩
                cases hout'
                exact ih ptrs' routes seen true q hq h

/-- The fill loop's result satisfies the collection invariant. -/
theorem fill_loop_routes_invariant (db : Timetable) (G : Graph) (sd : String) (maxR : ℕ)
    (paths : List (List String)) :
    ∀ (fuel : ℕ) (ptrs : List (Option ℤ)) routes seen out,
      fill_loop db G sd maxR paths fuel ptrs routes seen = some out →
      loopInvariant maxR routes seen →
      out.length ≤ maxR ∧ (out.map route_signature).Nodup ∧
        ∀ r ∈ out, passes_filters r = true := by
  intro fuel
  induction fuel with
  | zero =>
    intro ptrs routes seen out hout h
    exact Option.noConfusion hout
  | succ f ihf =>
    intro ptrs routes seen out hout h
    simp only [fill_loop] at hout
    split_ifs at hout with hfull
    · cases hout
      exact ⟨h.1, h.2.1, h.2.2.1⟩
    · cases hop : one_pass db G sd maxR paths ptrs routes seen false with
      | none =>
        rw [hop] at hout
        exact Option.noConfusion hout
      | some q =>
        obtain ⟨ptrs', routes', seen', act⟩ := q
        rw [hop] at hout
        dsimp only at hout
        have hinv' := one_pass_routes_invariant db G sd maxR paths ptrs routes seen false
          (ptrs', routes', seen', act) hop h
        split_ifs at hout with hact
        · exact ihf ptrs' routes' seen' out hout hinv'
        · cases hout
          exact ⟨hinv'.1, hinv'.2.1, hinv'.2.2.1⟩

/-- C1: When `find_routes` returns a list of routes, it contains at most
`max_routes` routes, their route signatures are pairwise distinct, and
every returned route has at least one trip leg, at most `MAX_TRANSFERS`
route changes between consecutive trip legs, and at least
`MIN_TRANSFER_MINUTES * 60` seconds between arrival and next departure
at every route change. -/
theorem C1_theorem (db : Timetable) (G : Graph) (candidate_paths : List (List String))
    (origin destination service_date : String) (dep_h dep_m dep_s : ℕ)
    (max_routes : ℕ) (R : List (List Leg))
    (hres : find_routes db G candidate_paths origin destination service_date
      dep_h dep_m dep_s max_routes = some R) :
    R.length ≤ max_routes ∧
    (R.map route_signature).Nodup ∧
    ∀ legs ∈ R, tripLegs legs ≠ [] ∧
      count_transfers legs ≤ MAX_TRANSFERS ∧
      ∀ p ∈ tripLegPairs legs, p.1.route_id ≠ p.2.route_id →
        (MIN_TRANSFER_MINUTES : ℤ) * 60 ≤
          hms_to_seconds p.2.departure_time - hms_to_seconds p.1.arrival_time := by
  have hinv := find_routes_loop_invariant db G service_date
    ((dep_h : ℤ) * 3600 + (dep_m : ℤ) * 60 + (dep_s : ℤ)) max_routes
    (candidate_paths.take (max_routes * 15)) [] [] []
    ⟨Nat.zero_le _, List.nodup_nil, by simp, by simp⟩
  simp only [find_routes] at hres
  split_ifs at hres with hk hfill
  · simp only [fill_later_departures] at hres
    have hmain := fill_loop_routes_invariant db G service_date max_routes _ _ _ _ _ R hres
      ⟨hinv.1, hinv.2.1, hinv.2.2.1, hinv.2.2.2⟩
    exact ⟨hmain.1, hmain.2.1, fun legs hl => passes_filters_spec (hmain.2.2 legs hl)⟩
  · cases hres
    exact ⟨hinv.1, hinv.2.1, fun legs hl => passes_filters_spec (hinv.2.2.1 legs hl)⟩

/-- C1 witness: the theorem applied to the sample one-trip network. -/
theorem C1_witness :
    sampleRoutes.length ≤ 1 ∧
    (sampleRoutes.map route_signature).Nodup ∧
    ∀ legs ∈ sampleRoutes, tripLegs legs ≠ [] ∧
      count_transfers legs ≤ MAX_TRANSFERS ∧
      ∀ p ∈ tripLegPairs legs, p.1.route_id ≠ p.2.route_id →
        (MIN_TRANSFER_MINUTES : ℤ) * 60 ≤
          hms_to_seconds p.2.departure_time - hms_to_seconds p.1.arrival_time :=
  C1_theorem sampleDb sampleG [["A", "B"]] "A" "B" "20260209" 7 0 0 1 sampleRoutes (by decide)


/-! ### C7: termination of `_fill_later_departures` -/

/-- On `cycleDb` the fill state alternates between pointer 1 and pointer
28801 forever: neither state ever yields a result, whatever the fuel. -/
theorem fill_cycle_none :
    ∀ fuel : ℕ,
      fill_loop cycleDb cycleG "20260209" 3 [["A", "B"]] fuel
        [some 1] cycleRoutes2 cycleSeen2 = none ∧
      fill_loop cycleDb cycleG "20260209" 3 [["A", "B"]] fuel
        [some 28801] cycleRoutes2 cycleSeen2 = none := by
  intro fuel
  induction fuel with
  | zero => exact ⟨rfl, rfl⟩
  | succ f ih =>
    have h1 : one_pass cycleDb cycleG "20260209" 3 [["A", "B"]] [some 1]
        cycleRoutes2 cycleSeen2 false = some ([some 28801], cycleRoutes2, cycleSeen2, true) := by
      decide
    have h2 : one_pass cycleDb cycleG "20260209" 3 [["A", "B"]] [some 28801]
        cycleRoutes2 cycleSeen2 false = some ([some 1], cycleRoutes2, cycleSeen2, true) := by
      decide
    constructor
    · simp only [fill_loop]
      rw [if_neg (by decide : ¬ (3 ≤ cycleRoutes2.length)), h1]
      dsimp only
      rw [if_pos rfl]
      exact ih.2
    · simp only [fill_loop]
      rw [if_neg (by decide : ¬ (3 ≤ cycleRoutes2.length)), h2]
      dsimp only
      rw [if_pos rfl]
      exact ih.1

/-- C7 counterexample: from the state `_fill_later_departures` reaches on
`cycleDb` (route T1 found by the main loop, pointer seeded one second
past its 08:00:00 departure), no amount of fuel makes the fill loop
return: the Python while loop runs forever.  Trip T2 departs at
"10:00:0x": the SQL cast reads 36000 so T2 is repeatedly selected, but
`_hms_to_seconds` reads 0, so the pointer jumps back to 1 instead of
advancing. -/
theorem C7_counterexample :
    ¬ ∃ fuel : ℕ,
      (fill_loop cycleDb cycleG "20260209" 3 [["A", "B"]] fuel
        ([cycleT1Route].map
          (fun legs => (first_trip legs).map (fun t => hms_to_seconds t.departure_time + 1)))
        [cycleT1Route] [["T1"]]).isSome = true := by
  rintro ⟨fuel, hf⟩
  have hptr : ([cycleT1Route].map
      (fun legs => (first_trip legs).map (fun t => hms_to_seconds t.departure_time + 1)))
      = [some 28801] := by decide
  rw [hptr] at hf
  cases fuel with
  | zero => exact Bool.noConfusion hf
  | succ f =>
    have h0 : one_pass cycleDb cycleG "20260209" 3 [["A", "B"]] [some 28801]
        [cycleT1Route] [["T1"]] false = some ([some 1], cycleRoutes2, cycleSeen2, true) := by
      decide
    simp only [fill_loop] at hf
    rw [if_neg (by decide : ¬ (3 ≤ [cycleT1Route].length)), h0] at hf
    dsimp only at hf
    rw [if_pos rfl, (fill_cycle_none f).1] at hf
    exact Bool.noConfusion hf


/-- The min-by fold of `trip_select` returns a member of the list (or
its initial accumulator). -/
theorem trip_select_fold_mem :
    ∀ (l : List StopTimeRow) (acc : Option StopTimeRow) (x : StopTimeRow),
      l.foldl (fun best st =>
        match best with
        | none => some st
        | some b => if strLt st.departure_time b.departure_time then some st else some b)
        acc = some x →
      x ∈ l ∨ acc = some x := by
  intro l
  induction l with
  | nil => intro acc x h; exact Or.inr h
  | cons a t ih =>
    intro acc x h
    rw [List.foldl_cons] at h
    rcases ih _ x h with h1 | h1
    · exact Or.inl (List.mem_cons_of_mem a h1)
    · cases acc with
      | none =>
        dsimp only at h1
        cases h1
        exact Or.inl (List.mem_cons_self a t)
      | some b =>
        dsimp only at h1
        split_ifs at h1
        · cases h1
          exact Or.inl (List.mem_cons_self a t)
        · exact Or.inr h1

/-- What a successful `trip_select` guarantees: some stop-time row of the
selected trip sits at the first stop and departs (by the SQL substring
parse) at or after `not_before`. -/
theorem trip_select_spec {db : Timetable} {rid s0 lastStop sd : String} {nb : ℤ} {tid : String}
    (h : trip_select db rid s0 lastStop sd nb = some tid) :
    ∃ st ∈ db.stop_times, st.trip_id = tid ∧ st.stop_id = s0 ∧
      nb ≤ sql_hms st.departure_time := by
  unfold trip_select at h
  rcases Option.map_eq_some'.mp h with ⟨st, hfold, hst⟩
  rcases trip_select_fold_mem _ none st hfold with hmem | hacc
  · have hmem' := (List.mem_filter.mp hmem).1
    have hmatch := (List.mem_filter.mp hmem).2
    unfold rowMatches at hmatch
    simp only [Bool.and_eq_true, beq_iff_eq, decide_eq_true_eq] at hmatch
    exact ⟨st, hmem', hst, hmatch.1.1.1, hmatch.2⟩
  · exact Option.noConfusion hacc

/-- `find?` returning `some a` splits the list around the first hit. -/
theorem findq_split {α : Type} {p : α → Bool} :
    ∀ {l : List α} {a : α}, l.find? p = some a →
      p a = true ∧ ∃ l₁ l₂, l = l₁ ++ a :: l₂ ∧ ∀ x ∈ l₁, p x = false := by
  intro l
  induction l with
  | nil => intro a h; exact Option.noConfusion h
  | cons b t ih =>
    intro a h
    rw [List.find?_cons] at h
    cases hb : p b with
    | true =>
      rw [hb] at h
      cases h
      exact ⟨hb, [], t, rfl, by simp⟩
    | false =>
      rw [hb] at h
      obtain ⟨hpa, l₁, l₂, hsplit, hfront⟩ := ih h
      refine ⟨hpa, b :: l₁, l₂, by rw [hsplit]; rfl, ?_⟩
      intro x hx
      rcases List.mem_cons.mp hx with h1 | h1
      · rw [h1]; exact hb
      · exact hfront x h1

/-- A successful stop-map lookup returns the last row with that stop id:
the list splits as `l₁ ++ sa :: l₂` with no later occurrence of the
stop. -/
theorem stop_map_get_spec {rows : List StopTimeRow} {s : String} {sa : StopTimeRow}
    (h : stop_map_get rows s = some sa) :
    sa.stop_id = s ∧
      ∃ l₁ l₂, rows = l₁ ++ sa :: l₂ ∧ ∀ r ∈ l₂, ¬ r.stop_id = s := by
  unfold stop_map_get at h
  obtain ⟨hp, r₁, r₂, hsplit, hfront⟩ := findq_split h
  have hrows : rows = r₂.reverse ++ sa :: r₁.reverse := by
    have h2 := congrArg List.reverse hsplit
    rw [List.reverse_reverse] at h2
    rw [h2]
    simp [List.reverse_append]
  refine ⟨by simpa using hp, r₂.reverse, r₁.reverse, hrows, ?_⟩
  intro r hr
  have := hfront r (List.mem_reverse.mp hr)
  simpa using this

/-- In a `Pairwise R` list split around the last occurrence of stop `s`
by `stop_map_get`, every member at stop `s` is related to the returned
row. -/
theorem pairwise_last_occurrence {R : StopTimeRow → StopTimeRow → Prop}
    (hrefl : ∀ x, R x x) {rows l₁ l₂ : List StopTimeRow} {sa st : StopTimeRow} {s : String}
    (hp : rows.Pairwise R) (hrows : rows = l₁ ++ sa :: l₂)
    (hl₂ : ∀ r ∈ l₂, ¬ r.stop_id = s) (hst : st ∈ rows) (hsts : st.stop_id = s) :
    R st sa := by
  subst hrows
  rcases List.mem_append.mp hst with h1 | h1
  · exact (List.pairwise_append.mp hp).2.2 st h1 sa (List.mem_cons_self _ _)
  · rcases List.mem_cons.mp h1 with h2 | h2
    · rw [h2]; exact hrefl sa
    · exact absurd hsts (hl₂ st h2)


/-- The first leg `_find_trip_legs` emits is a trip leg departing no
earlier (by the Python parse) than `not_before`, provided the timetable
is well formed. -/
theorem find_trip_legs_head {db : Timetable} {G : Graph} {rid : String}
    {stops : List String} {nb : ℤ} {sd : String} {legs : List Leg}
    (Hw : timesWellFormed db)
    (h : find_trip_legs db G rid stops nb sd = some legs) :
    legs = [] ∨ ∃ trec : TripLeg, legs.head? = some (Leg.trip trec) ∧
      nb ≤ hms_to_seconds trec.departure_time := by
  cases stops with
  | nil => exact Option.noConfusion h
  | cons s0 rest =>
    unfold find_trip_legs at h
    dsimp only at h
    cases htid : trip_select db rid s0 ((s0 :: rest).getLast (by simp)) sd nb with
    | none =>
      rw [htid] at h
      exact Option.noConfusion h
    | some tid =>
      rw [htid] at h
      dsimp only at h
      split_ifs at h with hall
      cases rest with
      | nil =>
        simp only [List.zip_nil_right, List.mapM_nil, pure] at h
        cases h
        exact Or.inl rfl
      | cons s1 rest2 =>
        refine Or.inr ?_
        rw [show (s0 :: s1 :: rest2).zip (s1 :: rest2)
          = (s0, s1) :: ((s1 :: rest2).zip rest2) from rfl, List.mapM_cons] at h
        rcases Option.bind_eq_some.mp h with ⟨b, hb, hrest⟩
        rcases Option.bind_eq_some.mp hrest with ⟨bs, hbs, hlegs⟩
        simp only [pure] at hlegs
        cases hlegs
        cases hsa : stop_map_get (trip_stop_times db tid) s0 with
        | none =>
          rw [hsa] at hb
          exact Option.noConfusion hb
        | some sa =>
          cases hsb : stop_map_get (trip_stop_times db tid) s1 with
          | none =>
            rw [hsa, hsb] at hb
            exact Option.noConfusion hb
          | some sb =>
            rw [hsa, hsb] at hb
            dsimp only at hb
            cases hb
            refine ⟨_, rfl, ?_⟩
            obtain ⟨st, hstmem, hsttid, hsts0, hstsql⟩ := trip_select_spec htid
            obtain ⟨hsas, l₁, l₂, hsplit, hlast⟩ := stop_map_get_spec hsa
            have hstrows : st ∈ trip_stop_times db tid := by
              unfold trip_stop_times
              apply (List.Perm.mem_iff (List.perm_insertionSort _ _)).mpr
              exact List.mem_filter.mpr ⟨hstmem, by simp [hsttid]⟩
            have hpw := Hw.2 st hstmem
            rw [hsttid] at hpw
            have hrel := pairwise_last_occurrence
              (fun x => le_refl (hms_to_seconds x.departure_time)) hpw hsplit hlast
              hstrows hsts0
            calc nb ≤ sql_hms st.departure_time := hstsql
              _ ≤ hms_to_seconds st.departure_time := Hw.1 st hstmem
              _ ≤ hms_to_seconds sa.departure_time := hrel


/-- The first trip leg of a scheduled path departs at or after
`not_before` (walk legs only push the bound upward). -/
theorem schedule_path_aux_first_dep {db : Timetable} {G : Graph} {sd : String}
    (Hw : timesWellFormed db) :
    ∀ (fuel : ℕ) (nodes : List String) (nb : ℤ) (legs : List Leg) (t : TripLeg),
      schedule_path_aux db G sd fuel nodes nb = some legs →
      first_trip legs = some t →
      nb ≤ hms_to_seconds t.departure_time := by
  intro fuel
  induction fuel with
  | zero =>
    intro nodes nb legs t h ht
    exact Option.noConfusion h
  | succ f ih =>
    intro nodes nb legs t h ht
    match nodes with
    | [] =>
      cases h
      exact Option.noConfusion ht
    | [u] =>
      cases h
      exact Option.noConfusion ht
    | u :: v :: rest =>
      rw [schedule_path_aux] at h
      cases hmw : min_weight_edge (G.edgeData u v) with
      | none =>
        rw [hmw] at h
        exact Option.noConfusion h
      | some e =>
        rw [hmw] at h
        cases e with
        | walk dist wsec =>
          dsimp only at h
          cases hrec : schedule_path_aux db G sd f (v :: rest) (nb + (wsec : ℤ)) with
          | none =>
            rw [hrec] at h
            exact Option.noConfusion h
          | some legs2 =>
            rw [hrec] at h
            dsimp only at h
            cases h
            have ht2 : first_trip legs2 = some t := by
              simpa [first_trip, tripLegs] using ht
            have := ih (v :: rest) (nb + (wsec : ℤ)) legs2 t hrec ht2
            have hw : (0 : ℤ) ≤ (wsec : ℤ) := Int.natCast_nonneg wsec
            omega
        | trip tid2 rid2 sid2 dep2 arr2 tsec2 =>
          dsimp only at h
          cases hpick : pick_longest_route G (u :: v :: rest) with
          | none =>
            rw [hpick] at h
            exact Option.noConfusion h
          | some rid =>
            rw [hpick] at h
            dsimp only at h
            rcases hrun : take_run G rid u (v :: rest) with ⟨seg0, rem⟩
            rw [hrun] at h
            cases seg0 with
            | nil => exact Option.noConfusion h
            | cons b seg =>
              dsimp only at h
              cases hftl : find_trip_legs db G rid (u :: b :: seg) nb sd with
              | none =>
                rw [hftl] at h
                exact Option.noConfusion h
              | some fl =>
                rw [hftl] at h
                cases fl with
                | nil => exact Option.noConfusion h
                | cons tl tlegs =>
                  dsimp only at h
                  rcases find_trip_legs_head Hw hftl with hnil | ⟨trec, hhead, hdep⟩
                  · exact List.noConfusion hnil
                  · have htl : tl = Leg.trip trec := by
                      simpa using hhead
                    subst htl
                    cases hlast : (Leg.trip trec :: tlegs).getLast (by simp) with
                    | walk w =>
                      rw [hlast] at h
                      exact Option.noConfusion h
                    | trip tlast =>
                      rw [hlast] at h
                      dsimp only at h
                      cases hrec : schedule_path_aux db G sd f
                          ((b :: seg).getLast (by simp) :: rem)
                          (hms_to_seconds tlast.arrival_time
                            + (MIN_TRANSFER_MINUTES : ℤ) * 60) with
                      | none =>
                        rw [hrec] at h
                        exact Option.noConfusion h
                      | some legs2 =>
                        rw [hrec] at h
                        dsimp only at h
                        cases h
                        have : first_trip ((Leg.trip trec :: tlegs) ++ legs2)
                            = some trec := by
                          simp [first_trip, tripLegs, List.filterMap_append]
                        rw [this] at ht
                        cases ht
                        exact hdep

/-- `_schedule_path` wrapper for the first-trip-leg departure bound. -/
theorem schedule_path_first_dep {db : Timetable} {G : Graph} {sd : String}
    (Hw : timesWellFormed db) {nodes : List String} {nb : ℤ} {legs : List Leg} {t : TripLeg}
    (h : schedule_path db G sd nodes nb = some legs)
    (ht : first_trip legs = some t) :
    nb ≤ hms_to_seconds t.departure_time := by
  unfold schedule_path at h
  cases haux : schedule_path_aux db G sd nodes.length nodes nb with
  | none =>
    rw [haux] at h
    exact Option.noConfusion h
  | some legs2 =>
    rw [haux] at h
    cases legs2 with
    | nil => exact Option.noConfusion h
    | cons a l =>
      dsimp only at h
      cases h
      exact schedule_path_aux_first_dep Hw nodes.length nodes nb (a :: l) t haux ht


/-- `fill_measure` of a cons. -/
theorem fill_measure_cons (p : Option ℤ) (ps : List (Option ℤ)) :
    fill_measure (p :: ps) = ptr_budget p + fill_measure ps := by
  simp [fill_measure]

/-- An in-window pointer has positive budget. -/
theorem ptr_budget_pos {nb : ℤ} (h0 : 0 ≤ nb) (hmax : nb ≤ MAX_FILL_SECONDS) :
    0 < ptr_budget (some nb) := by
  simp only [ptr_budget, MAX_FILL_SECONDS] at *
  split_ifs <;> omega

/-- Advancing an in-window pointer past any `d ≥ nb` strictly shrinks
its budget. -/
theorem ptr_budget_advance {nb d : ℤ} (h0 : 0 ≤ nb) (hmax : nb ≤ MAX_FILL_SECONDS)
    (hd : nb ≤ d) : ptr_budget (some (d + 1)) < ptr_budget (some nb) := by
  simp only [ptr_budget, MAX_FILL_SECONDS] at *
  split_ifs <;> omega

/-- One fill pass over nonnegative pointers always returns (no crash),
preserves pointer count and nonnegativity, never increases the pointer
measure, and strictly decreases it whenever it flips the activity flag. -/
theorem one_pass_progress {db : Timetable} {G : Graph} {sd : String}
    (Hw : timesWellFormed db) (maxR : ℕ) :
    ∀ (paths : List (List String)) (ptrs : List (Option ℤ)) (routes : List (List Leg))
      (seen : List (List String)) (act : Bool),
      paths.length = ptrs.length →
      (∀ x ∈ ptrs, ∀ nb : ℤ, x = some nb → 0 ≤ nb) →
      ∃ q, one_pass db G sd maxR paths ptrs routes seen act = some q ∧
        q.1.length = ptrs.length ∧
        (∀ x ∈ q.1, ∀ nb : ℤ, x = some nb → 0 ≤ nb) ∧
        fill_measure q.1 ≤ fill_measure ptrs ∧
        (q.2.2.2 = act ∨ fill_measure q.1 < fill_measure ptrs) := by
  intro paths
  induction paths with
  | nil =>
    intro ptrs routes seen act hlen hnn
    exact ⟨(ptrs, routes, seen, act), rfl, rfl, hnn, le_rfl, Or.inl rfl⟩
  | cons p ps ih =>
    intro ptrs routes seen act hlen hnn
    cases ptrs with
    | nil => simp at hlen
    | cons ptr ptrs' =>
      have hlen' : ps.length = ptrs'.length := by simpa using hlen
      have hnn' : ∀ x ∈ ptrs', ∀ nb : ℤ, x = some nb → 0 ≤ nb :=
        fun x hx => hnn x (List.mem_cons_of_mem _ hx)
      by_cases hfull : maxR ≤ routes.length
      · refine ⟨(ptr :: ptrs', routes, seen, act), ?_, rfl, hnn, le_rfl, Or.inl rfl⟩
        simp only [one_pass]
        rw [if_pos hfull]
      · cases ptr with
        | none =>
          rcases ih ptrs' routes seen act hlen' hnn' with ⟨q, hq, hql, hqn, hqm, hqa⟩
          refine ⟨(none :: q.1, q.2), ?_, ?_, ?_, ?_, ?_⟩
          · simp only [one_pass]
            rw [if_neg hfull, hq]
            rfl
          · simp [List.length_cons, hql]
          · intro x hx nb hnb
            rcases List.mem_cons.mp hx with h1 | h1
            · rw [h1] at hnb
              exact Option.noConfusion hnb
            · exact hqn x h1 nb hnb
          · simp only [fill_measure_cons]
            have hz : ptr_budget (none : Option ℤ) = 0 := rfl
            omega
          · rcases hqa with h1 | h1
            · exact Or.inl h1
            · refine Or.inr ?_
              simp only [fill_measure_cons]
              have hz : ptr_budget (none : Option ℤ) = 0 := rfl
              omega
        | some nb =>
          have h0 : (0 : ℤ) ≤ nb := hnn (some nb) (List.mem_cons_self _ _) nb rfl
          by_cases hmax : MAX_FILL_SECONDS < nb
          · rcases ih ptrs' routes seen act hlen' hnn' with ⟨q, hq, hql, hqn, hqm, hqa⟩
            refine ⟨(some nb :: q.1, q.2), ?_, ?_, ?_, ?_, ?_⟩
            · simp only [one_pass]
              rw [if_neg hfull]
              try dsimp only
              rw [if_pos hmax, hq]
              rfl
            · simp [List.length_cons, hql]
            · intro x hx nb' hnb'
              rcases List.mem_cons.mp hx with h1 | h1
              · rw [h1] at hnb'
                cases hnb'
                exact h0
              · exact hqn x h1 nb' hnb'
            · simp only [fill_measure_cons]
              omega
            · rcases hqa with h1 | h1
              · exact Or.inl h1
              · refine Or.inr ?_
                simp only [fill_measure_cons]
                omega
          · have hnotneg : ¬ nb < 0 := by omega
            have hble := ptr_budget_pos h0 (by omega : nb ≤ MAX_FILL_SECONDS)
            cases hsch : schedule_path db G sd p nb with
            | none =>
              rcases ih ptrs' routes seen true hlen' hnn' with ⟨q, hq, hql, hqn, hqm, hqa⟩
              refine ⟨(none :: q.1, q.2), ?_, ?_, ?_, ?_, ?_⟩
              · simp only [one_pass]
                rw [if_neg hfull]
                try dsimp only
                rw [if_neg hmax, if_neg hnotneg, hsch]
                try dsimp only
                rw [hq]
                rfl
              · simp [List.length_cons, hql]
              · intro x hx nb' hnb'
                rcases List.mem_cons.mp hx with h1 | h1
                · rw [h1] at hnb'
                  exact Option.noConfusion hnb'
                · exact hqn x h1 nb' hnb'
              · simp only [fill_measure_cons]
                have hz : ptr_budget (none : Option ℤ) = 0 := rfl
                omega
              · refine Or.inr ?_
                simp only [fill_measure_cons]
                have hz : ptr_budget (none : Option ℤ) = 0 := rfl
                omega
            | some legs =>
              by_cases hpf : passes_filters legs = true
              · cases hft : first_trip legs with
                | none =>
                  by_cases hsig : route_signature legs ∈ seen
                  · rcases ih ptrs' routes seen true hlen' hnn' with
                      ⟨q, hq, hql, hqn, hqm, hqa⟩
                    refine ⟨(none :: q.1, q.2), ?_, ?_, ?_, ?_, ?_⟩
                    · simp only [one_pass]
                      rw [if_neg hfull]
                      try dsimp only
                      rw [if_neg hmax, if_neg hnotneg, hsch]
                      try dsimp only
                      rw [if_neg (not_not_intro hpf), if_pos hsig, hft, hq]
                      rfl
                    · simp [List.length_cons, hql]
                    · intro x hx nb' hnb'
                      rcases List.mem_cons.mp hx with h1 | h1
                      · rw [h1] at hnb'
                        exact Option.noConfusion hnb'
                      · exact hqn x h1 nb' hnb'
                    · simp only [fill_measure_cons]
                      have hz : ptr_budget (none : Option ℤ) = 0 := rfl
                      omega
                    · refine Or.inr ?_
                      simp only [fill_measure_cons]
                      have hz : ptr_budget (none : Option ℤ) = 0 := rfl
                      omega
                  · rcases ih ptrs' (routes ++ [legs]) (seen ++ [route_signature legs]) true
                      hlen' hnn' with ⟨q, hq, hql, hqn, hqm, hqa⟩
                    refine ⟨(none :: q.1, q.2), ?_, ?_, ?_, ?_, ?_⟩
                    · simp only [one_pass]
                      rw [if_neg hfull]
                      try dsimp only
                      rw [if_neg hmax, if_neg hnotneg, hsch]
                      try dsimp only
                      rw [if_neg (not_not_intro hpf), if_neg hsig, hft, hq]
                      rfl
                    · simp [List.length_cons, hql]
                    · intro x hx nb' hnb'
                      rcases List.mem_cons.mp hx with h1 | h1
                      · rw [h1] at hnb'
                        exact Option.noConfusion hnb'
                      · exact hqn x h1 nb' hnb'
                    · simp only [fill_measure_cons]
                      have hz : ptr_budget (none : Option ℤ) = 0 := rfl
                      omega
                    · refine Or.inr ?_
                      simp only [fill_measure_cons]
                      have hz : ptr_budget (none : Option ℤ) = 0 := rfl
                      omega
                | some t =>
                  have hd : nb ≤ hms_to_seconds t.departure_time :=
                    schedule_path_first_dep Hw hsch hft
                  have hadv := ptr_budget_advance h0 (by omega : nb ≤ MAX_FILL_SECONDS) hd
                  by_cases hsig : route_signature legs ∈ seen
                  · rcases ih ptrs' routes seen true hlen' hnn' with
                      ⟨q, hq, hql, hqn, hqm, hqa⟩
                    refine ⟨(some (hms_to_seconds t.departure_time + 1) :: q.1, q.2),
                      ?_, ?_, ?_, ?_, ?_⟩
                    · simp only [one_pass]
                      rw [if_neg hfull]
                      try dsimp only
                      rw [if_neg hmax, if_neg hnotneg, hsch]
                      try dsimp only
                      rw [if_neg (not_not_intro hpf), if_pos hsig, hft, hq]
                      rfl
                    · simp [List.length_cons, hql]
                    · intro x hx nb' hnb'
                      rcases List.mem_cons.mp hx with h1 | h1
                      · rw [h1] at hnb'
                        cases hnb'
                        omega
                      · exact hqn x h1 nb' hnb'
                    · simp only [fill_measure_cons]
                      omega
                    · refine Or.inr ?_
                      simp only [fill_measure_cons]
                      omega
                  · rcases ih ptrs' (routes ++ [legs]) (seen ++ [route_signature legs]) true
                      hlen' hnn' with ⟨q, hq, hql, hqn, hqm, hqa⟩
                    refine ⟨(some (hms_to_seconds t.departure_time + 1) :: q.1, q.2),
                      ?_, ?_, ?_, ?_, ?_⟩
                    · simp only [one_pass]
                      rw [if_neg hfull]
                      try dsimp only
                      rw [if_neg hmax, if_neg hnotneg, hsch]
                      try dsimp only
                      rw [if_neg (not_not_intro hpf), if_neg hsig, hft, hq]
                      rfl
                    · simp [List.length_cons, hql]
                    · intro x hx nb' hnb'
                      rcases List.mem_cons.mp hx with h1 | h1
                      · rw [h1] at hnb'
                        cases hnb'
                        omega
                      · exact hqn x h1 nb' hnb'
                    · simp only [fill_measure_cons]
                      omega
                    · refine Or.inr ?_
                      simp only [fill_measure_cons]
                      omega
              · rcases ih ptrs' routes seen true hlen' hnn' with ⟨q, hq, hql, hqn, hqm, hqa⟩
                refine ⟨(none :: q.1, q.2), ?_, ?_, ?_, ?_, ?_⟩
                · simp only [one_pass]
                  rw [if_neg hfull]
                  try dsimp only
                  rw [if_neg hmax, if_neg hnotneg, hsch]
                  try dsimp only
                  rw [if_pos hpf, hq]
                  rfl
                · simp [List.length_cons, hql]
                · intro x hx nb' hnb'
                  rcases List.mem_cons.mp hx with h1 | h1
                  · rw [h1] at hnb'
                    exact Option.noConfusion hnb'
                  · exact hqn x h1 nb' hnb'
                · simp only [fill_measure_cons]
                  have hz : ptr_budget (none : Option ℤ) = 0 := rfl
                  omega
                · refine Or.inr ?_
                  simp only [fill_measure_cons]
                  have hz : ptr_budget (none : Option ℤ) = 0 := rfl
                  omega


/-- With fuel exceeding the pointer measure, the fill loop returns. -/
theorem fill_loop_terminates {db : Timetable} {G : Graph} {sd : String}
    (Hw : timesWellFormed db) (maxR : ℕ) (paths : List (List String)) :
    ∀ (fuel : ℕ) (ptrs : List (Option ℤ)) (routes : List (List Leg))
      (seen : List (List String)),
      paths.length = ptrs.length →
      (∀ x ∈ ptrs, ∀ nb : ℤ, x = some nb → 0 ≤ nb) →
      fill_measure ptrs + 2 ≤ fuel →
      (fill_loop db G sd maxR paths fuel ptrs routes seen).isSome = true := by
  intro fuel
  induction fuel with
  | zero =>
    intro ptrs routes seen hlen hnn hfuel
    omega
  | succ f ihf =>
    intro ptrs routes seen hlen hnn hfuel
    simp only [fill_loop]
    by_cases hfull : maxR ≤ routes.length
    · rw [if_pos hfull]
      rfl
    · rw [if_neg hfull]
      rcases one_pass_progress Hw maxR paths ptrs routes seen false hlen hnn with
        ⟨q, hq, hql, hqn, hqm, hqa⟩
      obtain ⟨ptrs', routes', seen', act⟩ := q
      rw [hq]
      dsimp only
      cases act with
      | false =>
        rw [if_neg Bool.false_ne_true]
        rfl
      | true =>
        rw [if_pos rfl]
        apply ihf ptrs' routes' seen' (hlen.trans hql.symm) hqn
        rcases hqa with h1 | h1
        · exact absurd h1 (by simp)
        · dsimp only at h1 hqm
          omega

/-- C7 (amended): under the section-3 data-model invariant — every
departure-time string parses at least as large under `_hms_to_seconds`
as under the SQL substring cast, and parsed departure times are
nondecreasing along each trip — and with nonnegative parsed first
departures for the seeded routes and one pointer per candidate path,
`_fill_later_departures` terminates; and whenever `max_routes` routes
are already present it returns them immediately, untouched. -/
theorem C7_theorem (db : Timetable) (G : Graph) (sd : String)
    (routes : List (List Leg)) (cands seen : List (List String)) (maxR : ℕ)
    (Hw : timesWellFormed db)
    (Hlen : cands.length = routes.length)
    (Hpos : ∀ legs ∈ routes, ∀ t : TripLeg, first_trip legs = some t →
      0 ≤ hms_to_seconds t.departure_time) :
    (fill_later_departures db G sd routes cands seen maxR).isSome = true ∧
    (maxR ≤ routes.length → fill_later_departures db G sd routes cands seen maxR
      = some routes) := by
  constructor
  · simp only [fill_later_departures]
    apply fill_loop_terminates Hw maxR cands _ _ routes seen ?hl ?hn le_rfl
    case hl => simp [Hlen]
    case hn =>
      intro x hx nb hnb
      rcases List.mem_map.mp hx with ⟨legs, hlegs, hxeq⟩
      rw [← hxeq] at hnb
      rcases Option.map_eq_some'.mp hnb with ⟨t, hft, hteq⟩
      have := Hpos legs hlegs t hft
      omega
  · intro hfull
    simp only [fill_later_departures]
    rw [show fill_measure (routes.map (fun legs => (first_trip legs).map
        (fun t => hms_to_seconds t.departure_time + 1))) + 2
      = (fill_measure (routes.map (fun legs => (first_trip legs).map
        (fun t => hms_to_seconds t.departure_time + 1))) + 1) + 1 from rfl]
    simp only [fill_loop]
    rw [if_pos hfull]

/-- C7 witness: the amended theorem applied to the sample network, whose
well-formed timetable and routes are checked by evaluation. -/
theorem C7_witness :
    (fill_later_departures sampleDb sampleG "20260209" sampleRoutes [["A", "B"]]
      [["T1"]] 2).isSome = true ∧
    (2 ≤ sampleRoutes.length → fill_later_departures sampleDb sampleG "20260209"
      sampleRoutes [["A", "B"]] [["T1"]] 2 = some sampleRoutes) :=
  C7_theorem sampleDb sampleG "20260209" sampleRoutes [["A", "B"]] [["T1"]] 2
    (by constructor <;> decide) (by decide)
    (by
      intro legs hlegs t ht
      rw [List.mem_singleton.mp hlegs] at ht
      have he : first_trip [Leg.trip ⟨"A", "B", "Stop A", "Stop B", "T1", "R1", "20260209",
          "08:00:00", "08:30:00", 1800⟩] = some ⟨"A", "B", "Stop A", "Stop B", "T1", "R1",
          "20260209", "08:00:00", "08:30:00", 1800⟩ := rfl
      rw [he] at ht
      cases ht
      decide)

end TransitPlanner
